import Mathlib

/-!
Verification of the research-paper-downloader core (modules/scholar_client.py,
modules/indexer.py, modules/scrapers.py) against its specification.

The Python modules are shallowly embedded below.  Strings are modelled as Lean
`String`/`List Char`; Python dicts keyed by strings become association lists
(`List (String × _)`) whose update-in-place/append semantics mirror dict
assignment, and Python dict equality (which is order-insensitive) is expressed
as pointwise-lookup equality where needed.  Python truthiness (`x or y`,
`if not x`) is modelled explicitly per type.  `None`-able values are `Option`.
Wall-clock sleeping and HTTP transport are not modelled; the retry loop of the
client is driven by an explicit list of per-attempt outcomes, and the rate
limiter's float arithmetic is modelled over `ℚ` (exact where the code only
assigns, as in `reset`).
-/

set_option maxRecDepth 8000

/-! ## Python-semantics helpers -/

/-- Python truthiness of an optional string: `None` and `""` are falsy. -/
def truthy_str : Option String → Bool
  | none => false
  | some s => s ≠ ""

/-- Python truthiness of an optional integer: `None` and `0` are falsy. -/
def truthy_int : Option Int → Bool
  | none => false
  | some n => n ≠ 0

/-- Python truthiness of an optional list (a JSON array or object): `None` and
an empty collection are falsy. -/
def truthy_list {α : Type} : Option (List α) → Bool
  | none => false
  | some l => !l.isEmpty

/-- `pyKeep tr new old` is Python `new if tr(new) else old`: the common shape of
both `new or old` (with `tr` = truthiness) and
`new if new is not None else old` (with `tr` = `isSome`). -/
def pyKeep {α : Type} (tr : α → Bool) (new old : α) : α :=
  if tr new then new else old

/-- Python `str(x)` for an optional string: `None` prints as `"None"`. -/
def pyShow : Option String → String
  | none => "None"
  | some s => s

/-- Python `d.get(k, 0)` rendered into an f-string for a count field. -/
def pyShowCount (n : Option Nat) : String :=
  toString (n.getD 0)

/-- First-match lookup in an association list (Python `d.get(k)`). -/
def lookupA {α : Type} : List (String × α) → String → Option α
  | [], _ => none
  | (k, v) :: rest, key => if k = key then some v else lookupA rest key

/-- Python `d[k] = v`: replace the value at an existing key in place, else
append a new binding at the end (dict insertion order). -/
def setA {α : Type} : List (String × α) → String → α → List (String × α)
  | [], key, v => [(key, v)]
  | (k, w) :: rest, key, v =>
      if k = key then (k, v) :: rest else (k, w) :: setA rest key v

/-- Add an element to a list-modelled set if absent (Python `set.add`). -/
def insertIfAbsent (l : List String) (x : String) : List String :=
  if x ∈ l then l else l ++ [x]

/-- Deduplicate keeping first occurrences (Python `set(xs)` membership). -/
def dedupFirstAux : List String → List String → List String
  | [], _ => []
  | x :: rest, seen =>
      if x ∈ seen then dedupFirstAux rest seen
      else x :: dedupFirstAux rest (x :: seen)

def dedupFirst (l : List String) : List String := dedupFirstAux l []

/-- Insert into a `≤`-sorted list of strings. -/
def insSorted (x : String) : List String → List String
  | [] => [x]
  | y :: rest => if x ≤ y then x :: y :: rest else y :: insSorted x rest

/-- Python `sorted(xs)` for strings (ascending lexicographic). -/
def sortStr (l : List String) : List String :=
  l.foldr insSorted []

/-! ## modules/scholar_client.py — RateLimiter and the retry loop -/

/-- State of `RateLimiter` (scholar_client.py).  The wall-clock `last`
timestamp only affects how long `wait` sleeps, never the pacing interval, and
is not modelled; intervals are exact rationals. -/
structure RateLimiter where
  min_interval : ℚ
  max_interval : ℚ
  dynamic_interval : ℚ
  deriving DecidableEq, Repr

/-- `RateLimiter.reset`: force the interval back to the configured floor. -/
def RateLimiter.reset (l : RateLimiter) : RateLimiter :=
  { l with dynamic_interval := l.min_interval }

/-- `RateLimiter.backoff` with the default factor 1.2. -/
def RateLimiter.backoff (l : RateLimiter) : RateLimiter :=
  { l with dynamic_interval := min l.max_interval (l.dynamic_interval * (6 / 5 : ℚ)) }

/-- `RateLimiter.relax` with the default factor 0.85. -/
def RateLimiter.relax (l : RateLimiter) : RateLimiter :=
  { l with dynamic_interval := max l.min_interval (l.dynamic_interval * (17 / 20 : ℚ)) }

/-- One attempt's observable outcome inside `ScholarClient._retry_get`:
HTTP 200, HTTP 429 (with optional parsed Retry-After), a 5xx server error,
a transport exception (`r is None`), or any other status code. -/
inductive Attempt where
  | ok
  | rateLimited (retryAfter : Option ℚ)
  | serverError
  | transportError
  | otherStatus
  deriving DecidableEq, Repr

/-- The retry loop body of `_retry_get`, for `rem` remaining attempts out of
`tries`, with `i` the index of the next attempt.  Returns whether a response
was obtained, the final limiter state, and the trace of pacing intervals in
force at each `limiter.wait()` call.  Sleeps (429 wait and 5xx delay) do not
change the limiter state and are not recorded. -/
def retryLoop (outcomes : Nat → Attempt) : Nat → Nat → RateLimiter →
    Bool × RateLimiter × List ℚ
  | 0, _, l => (false, l, [])
  | rem + 1, i, l =>
    match outcomes i with
    | .ok => (true, l.relax, [l.dynamic_interval])
    | .rateLimited _ =>
        let r := retryLoop outcomes rem (i + 1) l.backoff
        (r.1, r.2.1, l.dynamic_interval :: r.2.2)
    | _ =>
        let r := retryLoop outcomes rem (i + 1) l
        (r.1, r.2.1, l.dynamic_interval :: r.2.2)

/-- `ScholarClient._retry_get` (scholar_client.py, default `tries = 10`):
`self.limiter.reset()` precedes the attempt loop. -/
def retry_get (l : RateLimiter) (outcomes : Nat → Attempt) :
    Bool × RateLimiter × List ℚ :=
  retryLoop outcomes 10 0 l.reset

/-! ## modules/indexer.py — name normalization and matching
(`name_parts` / `name_matches`, nested in `resolve_author_id_via_papers`) -/

/-- Character classified as whitespace by Python's `\s` / `str.strip()`
(restricted to the whitespace characters occurring in this domain). -/
def isSpc (c : Char) : Bool :=
  c = ' ' || c = '\t' || c = '\n' || c.toNat = 13 || c.toNat = 11 || c.toNat = 12

/-- Python `str.strip()` on a character list. -/
def pyStrip (l : List Char) : List Char :=
  (l.dropWhile isSpc).reverse.dropWhile isSpc |>.reverse

/-- Python `str.strip(chars)` for an explicit character set. -/
def pyStripChars (cs : List Char) (l : List Char) : List Char :=
  (l.dropWhile (· ∈ cs)).reverse.dropWhile (· ∈ cs) |>.reverse

def isAsciiUpper (c : Char) : Bool := 'A' ≤ c && c ≤ 'Z'
def isAsciiLower (c : Char) : Bool := 'a' ≤ c && c ≤ 'z'
def isAsciiAlpha (c : Char) : Bool := isAsciiUpper c || isAsciiLower c
def isDig (c : Char) : Bool := '0' ≤ c && c ≤ '9'
def isAlnum (c : Char) : Bool := isAsciiAlpha c || isDig c

/-- Word character for Python's `\b` boundary (modelled over the ASCII
alphanumerics and underscore of this domain). -/
def isWordC (c : Char) : Bool := isAlnum c || c = '_'

/-- Split on runs of separator characters, dropping empties
(Python `re.split(r"[...]+", s)` restricted to a character class,
plus the `if t` filter used at every call site). -/
def splitDropSep (sep : Char → Bool) : List Char → List (List Char) :=
  fun l =>
    let rec go : List Char → List Char → List (List Char)
      | [], acc => if acc.isEmpty then [] else [acc.reverse]
      | c :: rest, acc =>
          if sep c then
            if acc.isEmpty then go rest [] else acc.reverse :: go rest []
          else go rest (c :: acc)
    go l []

/-- Lowercase a character list (Python `str.lower()` on the ASCII range). -/
def lowerL (l : List Char) : List Char := l.map Char.toLower

/-- `s.replace(old, new)` is only needed for single characters here. -/
def replaceChar (old new : Char) (l : List Char) : List Char :=
  l.map (fun c => if c = old then new else c)

/-- Collapse `\s+` runs to a single space (Python `re.sub(r"\s+", " ", s)`);
the flag records whether we are inside a whitespace run. -/
def collapseWsAux : Bool → List Char → List Char
  | _, [] => []
  | inRun, c :: rest =>
      if isSpc c then
        if inRun then collapseWsAux true rest
        else ' ' :: collapseWsAux true rest
      else c :: collapseWsAux false rest

def collapseWs (l : List Char) : List Char := collapseWsAux false l

/-- Leading-segment test on character lists (Python `s.startswith(t)`). -/
def leadsWith : List Char → List Char → Bool
  | [], _ => true
  | _ :: _, [] => false
  | a :: as, b :: bs => a = b && leadsWith as bs

/-- Substring test on character lists (Python `sub in s`). -/
def hasSubL (sub : List Char) : List Char → Bool
  | [] => sub.isEmpty
  | c :: rest => leadsWith sub (c :: rest) || hasSubL sub rest

/-- Result of `name_parts` (indexer.py): normalized surname, first token,
token initials and the full normalized lowercase string. -/
structure NameParts where
  last : List Char
  first : List Char
  initials : List Char
  raw : List Char
  deriving DecidableEq, Repr

/-- The punctuation class removed by `name_parts`:
`re.sub(r"[()\"'’„”“\[\]\-:;]", " ", s)`. -/
def namePunct (c : Char) : Bool :=
  c = '(' || c = ')' || c = '"' || c = Char.ofNat 39 || c.toNat = 0x2019 ||
  c.toNat = 0x201E || c.toNat = 0x201D || c.toNat = 0x201C ||
  c = '[' || c = ']' || c = '-' || c = ':' || c = ';'

/-- `name_parts(raw)` from `resolve_author_id_via_papers` (indexer.py):
NBSP to space, strip, flip `"Last, First"` to `"First Last"` (first two
comma-separated chunks only), remove punctuation, collapse whitespace, split
into tokens, strip token-edge dots, and extract last/first/initials/raw. -/
def name_parts (rawName : String) : NameParts :=
  if rawName = "" then ⟨[], [], [], []⟩ else
  let s := replaceChar (Char.ofNat 0xA0) ' ' rawName.data
  let s := pyStrip s
  let s :=
    if ',' ∈ s then
      let parts := (splitDropSep (· = ',') s).map pyStrip |>.filter (!·.isEmpty)
      match parts with
      | p0 :: p1 :: _ => p1 ++ [' '] ++ p0
      | _ => s
    else s
  let sClean := s.map (fun c => if namePunct c then ' ' else c)
  let sClean := pyStrip (collapseWs sClean)
  let tokens := splitDropSep (fun c => c = ',' || isSpc c) sClean
  let tokens := tokens.map (pyStripChars ['.'])
  match tokens with
  | [] => ⟨[], [], [], []⟩
  | t0 :: rest =>
      let lastTok := lowerL ((t0 :: rest).getLast (by simp))
      let initials := ((t0 :: rest).filter (!·.isEmpty)).map
        (fun t => (t.headD ' ').toLower)
      ⟨lastTok, lowerL t0, initials, lowerL sClean⟩

/-- `name_matches(candidate_name, target_name)` (indexer.py): exact surname
equality is required, then any of several first-name/initial/substring
heuristics suffices. -/
def name_matches (candidateName targetName : String) : Bool :=
  let cand := name_parts candidateName
  let targ := name_parts targetName
  if cand.last.isEmpty || targ.last.isEmpty then false
  else if cand.last ≠ targ.last then false
  else if hasSubL targ.raw cand.raw || hasSubL cand.raw targ.raw then true
  else if !cand.initials.isEmpty && !targ.initials.isEmpty &&
          cand.initials.headD ' ' = targ.initials.headD ' ' then true
  else if !targ.first.isEmpty && hasSubL targ.first cand.raw then true
  else if !targ.initials.isEmpty && targ.initials.headD ' ' ∈ cand.initials then true
  else if cand.initials.length = 1 &&
          (cand.raw.headD ' ' = cand.initials.headD ' ') &&
          cand.last = targ.last then true
  else false

/-! ## modules/indexer.py — data model -/

/-- An author object `{"authorId": ..., "name": ...}` as stored in
`PaperRecord.authors` and returned by the client (`a.get(...)` may be null). -/
structure AuthorObj where
  authorId : Option String
  name : Option String
  deriving DecidableEq, Repr

/-- One paper as returned by `ScholarClient.fetch_author_papers` (or, more
generally, any dict fed to `update_professor_papers`): every field is read
with `.get`, so every field may be absent. -/
structure FetchedPaper where
  paperId : Option String
  title : Option String
  year : Option Int
  citations : Option Int
  pdf_url : Option String
  url : Option String
  externalIds : Option (List (String × String))
  venue : Option String
  types : Option (List String)
  authors : Option (List AuthorObj)
  deriving DecidableEq, Repr

/-- A merged paper record as written by `update_professor_papers` into
`db["papers"]` (its fixed key schema). -/
@[ext] structure PaperRec where
  paperId : String
  title : Option String
  year : Option Int
  citations : Option Int
  pdf_url : Option String
  url : Option String
  externalIds : Option (List (String × String))
  venue : Option String
  types : Option (List String)
  last_seen : String
  authors : List AuthorObj
  deriving DecidableEq, Repr

/-- A professor record as written by `upsert_professor`. -/
structure ProfRec where
  authorId : String
  name : String
  university : String
  department : String
  paperIds : List String
  last_updated : String
  deriving DecidableEq, Repr

/-- `database.json`: `{"professors": {...}, "papers": {...}}`, both dicts
modelled as insertion-ordered association lists. -/
structure Db where
  professors : List (String × ProfRec)
  papers : List (String × PaperRec)
  deriving DecidableEq, Repr

/-- The empty store `{"professors": {}, "papers": {}}`. -/
def emptyDb : Db := ⟨[], []⟩

/-- `ScholarIndexer._load_db` (indexer.py): if the file exists, parse it; a
parse failure (`parsed = none`) or a missing file silently yields the empty
store. -/
def load_db (fileExists : Bool) (parsed : Option Db) : Db :=
  if fileExists then parsed.getD emptyDb else emptyDb

/-! ## modules/indexer.py — merge of fetched papers -/

/-- The inner loop over `p["authors"]` in `update_professor_papers`
(lines 238–242): append each author object whose id is not in `authors_seen`,
updating the seen set as it goes.  Entries are modelled as author objects
(the `isinstance(a, dict)` guard always holds under the client's schema). -/
def paFold : List AuthorObj → List AuthorObj → List (Option String) →
    List AuthorObj × List (Option String)
  | [], l, seen => (l, seen)
  | a :: rest, l, seen =>
      if a.authorId ∈ seen then paFold rest l seen
      else paFold rest (l ++ [a]) (a.authorId :: seen)

/-- Author merging in `update_professor_papers` (lines 230–242): compute
`authors_seen` from the existing list, append the current professor as a full
object if unseen — note the seen set is *not* updated afterwards — then merge
the paper's own author objects against the original seen set. -/
def mergeAuthors (author_id : String) (author_name : Option String)
    (existingAuthors : List AuthorObj) (pAuthors : Option (List AuthorObj)) :
    List AuthorObj :=
  let seen := existingAuthors.map (·.authorId)
  let l1 :=
    if some author_id ∈ seen then existingAuthors
    else existingAuthors ++ [⟨some author_id, some (author_name.getD "")⟩]
  match pAuthors with
  | none => l1
  | some [] => l1
  | some pa => (paFold pa l1 seen).1

/-- The `merged` dict built for one fetched paper (lines 244–256).
`x or y` keeps the existing value only when the new one is falsy;
`citations` uses `x if x is not None else y`. -/
def mergePaper (author_id : String) (author_name : Option String)
    (today : String) (p : FetchedPaper) (pid : String)
    (existing : Option PaperRec) : PaperRec :=
  { paperId := pid
    title := pyKeep truthy_str p.title (existing.bind (·.title))
    year := pyKeep truthy_int p.year (existing.bind (·.year))
    citations := pyKeep Option.isSome p.citations (existing.bind (·.citations))
    pdf_url := pyKeep truthy_str p.pdf_url (existing.bind (·.pdf_url))
    url := pyKeep truthy_str p.url (existing.bind (·.url))
    externalIds := pyKeep truthy_list p.externalIds (existing.bind (·.externalIds))
    venue := pyKeep truthy_str p.venue (existing.bind (·.venue))
    types := pyKeep truthy_list p.types (existing.bind (·.types))
    last_seen := today
    authors := mergeAuthors author_id author_name
      ((existing.map (·.authors)).getD []) p.authors }

/-- One iteration of the `for p in papers` loop of `update_professor_papers`:
skip papers with a falsy `paperId`, otherwise merge into `db["papers"]` and
add the id to the `paper_ids` set. -/
def paperStep (author_id : String) (author_name : Option String)
    (today : String) (acc : Db × List String) (p : FetchedPaper) :
    Db × List String :=
  match p.paperId with
  | none => acc
  | some pid =>
      if pid = "" then acc
      else
        let existing := lookupA acc.1.papers pid
        let merged := mergePaper author_id author_name today p pid existing
        ({ acc.1 with papers := setA acc.1.papers pid merged },
         insertIfAbsent acc.2 pid)

/-- `ScholarIndexer.update_professor_papers` (indexer.py).  The fetch result
is an explicit argument: `none` models the exception path (`return db, []`),
an empty list the `if not papers` path (`return db, []`).  Returns the updated
store and `sorted(paper_ids)`. -/
def update_professor_papers (author_id : String) (author_name : Option String)
    (today : String) (db : Db) (fetched : Option (List FetchedPaper)) :
    Db × List String :=
  let paperIds0 :=
    dedupFirst (((lookupA db.professors author_id).map (·.paperIds)).getD [])
  match fetched with
  | none => (db, [])
  | some [] => (db, [])
  | some papers =>
      let (db', ids) :=
        papers.foldl (paperStep author_id author_name today) (db, paperIds0)
      (db', sortStr ids)

/-- `ScholarIndexer.upsert_professor` (indexer.py): overwrite the professor
record wholesale. -/
def upsert_professor (db : Db) (author_id name uni dept : String)
    (paper_ids : List String) (today : String) : Db :=
  let info := ProfRec.mk author_id name uni dept paper_ids today
  { db with professors := setA db.professors author_id info }

/-! ## modules/indexer.py — identity resolution -/

/-- Paper search result used by `resolve_author_id_via_papers`: only the
author list is inspected. -/
structure PaperResult where
  authors : List AuthorObj
  deriving DecidableEq, Repr

/-- A scraped paper from professors.json: only `title` is used. -/
structure ScrapedPaper where
  title : Option String
  deriving DecidableEq, Repr

/-- A Counter over string keys as an insertion-ordered association list:
`Counter[k] += 1` inserts at the end on first sight. -/
def bumpCounter (l : List (String × Nat)) (k : String) : List (String × Nat) :=
  match lookupA l k with
  | some n => setA l k (n + 1)
  | none => l ++ [(k, 1)]

/-- One step of the maximum scan behind `Counter.most_common(1)[0]`: keep the
incumbent unless the new count is strictly greater (CPython's `max` keeps the
first maximum). -/
def mcStep (acc : Option (String × Nat)) (kv : String × Nat) :
    Option (String × Nat) :=
  match acc with
  | none => some kv
  | some best => if kv.2 > best.2 then some kv else acc

/-- `Counter.most_common(1)[0]` — the first-inserted key among those with the
maximal count. -/
def mostCommonOne (l : List (String × Nat)) : Option (String × Nat) :=
  l.foldl mcStep none

/-- The vote counter built by `resolve_author_id_via_papers` (indexer.py,
lines 129–161): over the first `max_papers = 5` scraped papers with a truthy
title, search the API (`none` models a raised exception, skipped like an
empty result) and give one vote per matching author occurrence; authors with
a falsy name or id are skipped. -/
def author_hits (name : String) (papers : List ScrapedPaper)
    (searchPapers : String → Option (List PaperResult)) :
    List (String × Nat) :=
  (papers.take 5).foldl (fun hits sp =>
    match sp.title with
    | none => hits
    | some t =>
        if t = "" then hits
        else
          match searchPapers t with
          | none => hits
          | some [] => hits
          | some results =>
              results.foldl (fun hits r =>
                r.authors.foldl (fun hits a =>
                  let candName := (a.name).getD ""
                  match a.authorId with
                  | none => hits
                  | some cid =>
                      if candName = "" ∨ cid = "" then hits
                      else if name_matches candName name then bumpCounter hits cid
                      else hits) hits) hits) []

/-- `ScholarIndexer.resolve_author_id_via_papers` (indexer.py, lines 163–169):
return the single most frequent matching author id, or `None`. -/
def resolve_author_id_via_papers (name : String) (papers : List ScrapedPaper)
    (searchPapers : String → Option (List PaperResult)) : Option String :=
  match mostCommonOne (author_hits name papers searchPapers) with
  | none => none
  | some best => some best.1

/-- An author-search candidate as consumed by `resolve_author_id`
(fields requested: authorId, name, affiliations, url, paperCount,
citationCount). -/
structure Candidate where
  authorId : Option String
  name : Option String
  affiliations : Option (List String)
  url : Option String
  paperCount : Option Nat
  citationCount : Option Nat
  deriving DecidableEq, Repr

/-- A single-quote character, kept out of string literals. -/
def sqc : String := String.singleton (Char.ofNat 39)

/-- One line of the multiple-candidates message (indexer.py, lines 189–194):
`- {name} ({authorId}), Papers: {paperCount}, Citations: {citationCount},
URL: {url}`. -/
def candLine (c : Candidate) : String :=
  "- " ++ pyShow c.name ++ " (" ++ pyShow c.authorId ++ "), Papers: " ++
  pyShowCount c.paperCount ++ ", Citations: " ++ pyShowCount c.citationCount ++
  ", URL: " ++ pyShow c.url

/-- Python `"\n".join(lines)`. -/
def joinNL : List String → String
  | [] => ""
  | [x] => x
  | x :: y :: rest => x ++ "\n" ++ joinNL (y :: rest)

/-- The full ambiguity message for a candidate list (lines 187–195). -/
def ambMsg (name : String) (cs : List Candidate) : String :=
  joinNL (("Multiple author candidates found for " ++ sqc ++ name ++ sqc ++ ":")
    :: cs.map candLine)

/-- The entry appended to `error.txt` (lines 199–201):
`{timestamp} - {msg}\n\n`. -/
def ambEntry (ts name : String) (cs : List Candidate) : String :=
  ts ++ " - " ++ ambMsg name cs ++ "\n\n"

/-- The id-reuse scan at the top of `resolve_author_id` (lines 176–179):
first professor whose stored name equals the query name. -/
def findReuse : List (String × ProfRec) → String → Option String
  | [], _ => none
  | (aid, info) :: rest, name =>
      if info.name = name then some aid else findReuse rest name

/-- `ScholarIndexer.resolve_author_id` (indexer.py).  The author-search result
is an explicit argument (`none` models a raised exception).  Returns the
resolved id, if any, together with the list of entries appended to the
durable `error.txt` log. -/
def resolve_author_id (name : String) (db : Db)
    (searchResult : Option (List Candidate)) (ts : String) :
    Option String × List String :=
  match findReuse db.professors name with
  | some aid => (some aid, [])
  | none =>
      match searchResult with
      | none => (none, [])
      | some [] => (none, [])
      | some [c] => (c.authorId, [])
      | some cs => (none, [ambEntry ts name cs])

/-! ## modules/indexer.py — orchestration -/

/-- The external world as seen by `update_from_professors_file`: paper search
and author search (each `none` on a raised exception), the author-papers
fetch, today's date stamp and the log timestamp. -/
structure Env where
  searchPapers : String → Option (List PaperResult)
  searchAuthors : String → Option (List Candidate)
  fetchPapers : String → Option (List FetchedPaper)
  today : String
  ts : String

/-- The body of the per-name loop of `update_from_professors_file`
(indexer.py, lines 285–300): resolve an id (Strategy A, else Strategy B with
its logging), and if one was found merge the fetched papers and upsert the
professor.  Returns the store, the log entries written, and whether the store
was saved for this name. -/
def processName (env : Env) (db : Db) (uni dept name : String)
    (papers : List ScrapedPaper) : Db × List String × Bool :=
  let aVia := resolve_author_id_via_papers name papers env.searchPapers
  let (aid?, log) :=
    match aVia with
    | some a => (some a, [])
    | none => resolve_author_id name db (env.searchAuthors name) env.ts
  match aid? with
  | none => (db, log, false)
  | some aid =>
      if aid = "" then (db, log, false)
      else
        let (db1, pids) :=
          update_professor_papers aid (some name) env.today db (env.fetchPapers aid)
        (upsert_professor db1 aid name uni dept pids env.today, log, true)

/-- The hierarchical professors.json input:
university → department → name → scraped papers. -/
def Hier : Type :=
  List (String × List (String × List (String × List ScrapedPaper)))

/-- `ScholarIndexer.update_from_professors_file` (indexer.py): load the store
(an unreadable store silently becomes the empty store), then process every
name, saving after each successful one.  Returns the final store, the total
number of names visited and the number of saves performed. -/
def update_from_professors_file (env : Env) (hier : Hier)
    (dbFileExists : Bool) (parsed : Option Db) : Db × Nat × Nat :=
  let db0 := load_db dbFileExists parsed
  hier.foldl (fun acc (ud : String × List (String × List (String × List ScrapedPaper))) =>
    ud.2.foldl (fun acc dd =>
      dd.2.foldl (fun acc nm =>
        let (db', _, saved) := processName env acc.1 ud.1 dd.1 nm.1 nm.2
        (db', acc.2.1 + 1, acc.2.2 + (if saved then 1 else 0))) acc) acc)
    (db0, 0, 0)

/-! ## modules/scrapers.py — clean_text and low-level helpers -/

/-- Parse a run of decimal digits. -/
def digitsToNat (l : List Char) : Nat :=
  l.foldl (fun a c => a * 10 + (c.toNat - 48)) 0

/-- `html.unescape` restricted to the core named entities and numeric
character references; unknown entity text is left verbatim. -/
def htmlUnescapeAux : Nat → List Char → List Char
  | 0, l => l
  | _, [] => []
  | fuel + 1, '&' :: rest =>
      if leadsWith "quot;".data rest then '"' :: htmlUnescapeAux fuel (rest.drop 5)
      else if leadsWith "amp;".data rest then '&' :: htmlUnescapeAux fuel (rest.drop 4)
      else if leadsWith "lt;".data rest then '<' :: htmlUnescapeAux fuel (rest.drop 3)
      else if leadsWith "gt;".data rest then '>' :: htmlUnescapeAux fuel (rest.drop 3)
      else if leadsWith "apos;".data rest then
        Char.ofNat 39 :: htmlUnescapeAux fuel (rest.drop 5)
      else if leadsWith "nbsp;".data rest then
        Char.ofNat 0xA0 :: htmlUnescapeAux fuel (rest.drop 5)
      else if rest.head? = some '#' then
        let digits := (rest.drop 1).takeWhile isDig
        if !digits.isEmpty && (rest.drop (1 + digits.length)).head? = some ';' then
          Char.ofNat (digitsToNat digits) ::
            htmlUnescapeAux fuel (rest.drop (2 + digits.length))
        else '&' :: htmlUnescapeAux fuel rest
      else '&' :: htmlUnescapeAux fuel rest
  | fuel + 1, c :: rest => c :: htmlUnescapeAux fuel rest

def htmlUnescape (l : List Char) : List Char := htmlUnescapeAux (l.length + 1) l

/-- `unicodedata.normalize("NFKC", s)` restricted to the compatibility
characters plausible in this domain: NBSP, the vertical comma, and the
fullwidth ASCII block; all other characters are untouched. -/
def nfkcChar (c : Char) : Char :=
  if c.toNat = 0xA0 then ' '
  else if c.toNat = 0xFE10 then ','
  else if 0xFF01 ≤ c.toNat ∧ c.toNat ≤ 0xFF5E then Char.ofNat (c.toNat - 0xFEE0)
  else c

/-- The character class of `re.sub(r'[‘’“”\u009D«»＂＇â€œâ€]', '"', s)`. -/
def quoteClassChar (c : Char) : Bool :=
  c.toNat = 0x2018 || c.toNat = 0x2019 || c.toNat = 0x201C || c.toNat = 0x201D ||
  c.toNat = 0x9D || c.toNat = 0xAB || c.toNat = 0xBB || c.toNat = 0xFF02 ||
  c.toNat = 0xFF07 || c.toNat = 0xE2 || c.toNat = 0x20AC || c.toNat = 0x153

/-- The character class of `re.sub(r'[‐‑‒–—―−－â€]', '-', s)`. -/
def dashClassChar (c : Char) : Bool :=
  (0x2010 ≤ c.toNat ∧ c.toNat ≤ 0x2015 : Bool) || c.toNat = 0x2212 ||
  c.toNat = 0xFF0D || c.toNat = 0xE2 || c.toNat = 0x20AC

/-- The edge-strip class `[\s\-,;:“”‘’，︐]`. -/
def edgeStripChar (c : Char) : Bool :=
  isSpc c || c = '-' || c = ',' || c = ';' || c = ':' ||
  c.toNat = 0x201C || c.toNat = 0x201D || c.toNat = 0x2018 ||
  c.toNat = 0x2019 || c.toNat = 0xFF0C || c.toNat = 0xFE10

/-- The deletion class of `re.sub(r'[â€œ”œ‰�]+', '', s)`. -/
def strayClass1 (c : Char) : Bool :=
  c.toNat = 0xE2 || c.toNat = 0x20AC || c.toNat = 0x153 || c.toNat = 0x201D ||
  c.toNat = 0x2030 || c.toNat = 0xFFFD

/-- The deletion class of `re.sub(r'[â�]+', '', s)`. -/
def strayClass2 (c : Char) : Bool :=
  c.toNat = 0xE2 || c.toNat = 0xFFFD

/-- `s.replace(pat, rep)`: replace every occurrence, left to right. -/
def replaceSeqAux (pat rep : List Char) : Nat → List Char → List Char
  | 0, l => l
  | _, [] => []
  | fuel + 1, c :: rest =>
      if !pat.isEmpty && leadsWith pat (c :: rest) then
        rep ++ replaceSeqAux pat rep fuel ((c :: rest).drop pat.length)
      else c :: replaceSeqAux pat rep fuel rest

def replaceSeq (pat rep l : List Char) : List Char :=
  replaceSeqAux pat rep (l.length + 1) l

/-- `clean_text` (scrapers.py, lines 162–182), step for step:
unescape, NFKC, curly-quote fold, dash fold, whitespace collapse and strip,
edge-punctuation strip, stray-mojibake deletion, the (by then vacuous)
mojibake `.replace` chain, and a final stray deletion. -/
def clean_text (l : List Char) : List Char :=
  let s := htmlUnescape l
  let s := s.map nfkcChar
  let s := s.map (fun c => if quoteClassChar c then '"' else c)
  let s := s.map (fun c => if dashClassChar c then '-' else c)
  let s := pyStrip (collapseWs s)
  let s := s.dropWhile edgeStripChar
  let s := (s.reverse.dropWhile edgeStripChar).reverse
  let s := s.filter (fun c => !strayClass1 c)
  let s := replaceSeq ['â', '€', 'œ'] [Char.ofNat 0x201C] s
  let s := replaceSeq ['â', '€'] [Char.ofNat 0x201D] s
  let s := replaceSeq ['â', '€', Char.ofNat 0x2DC] [Char.ofNat 0x2018] s
  let s := replaceSeq ['â', '€', Char.ofNat 0x2122] [Char.ofNat 0x2019] s
  let s := replaceSeq ['â', '€', Char.ofNat 0x201C] [Char.ofNat 0x2013] s
  let s := replaceSeq ['â', '€', Char.ofNat 0x201D] [Char.ofNat 0x2014] s
  let s := replaceSeq ['â', '€', Char.ofNat 0xA6] [Char.ofNat 0x2026] s
  s.filter (fun c => !strayClass2 c)

/-- `BeautifulSoup(raw, "html.parser").get_text(" ", strip=True)` modelled as:
drop `<...>` tag spans, strip each text segment, join the non-empty segments
with single spaces. -/
def soupTextAux : Nat → List Char → List (List Char)
  | 0, l => [l]
  | _, [] => [[]]
  | fuel + 1, '<' :: rest =>
      let inTag := rest.takeWhile (· ≠ '>')
      let rest' := rest.drop inTag.length
      (match rest' with
       | '>' :: r => [] :: soupTextAux fuel r
       | _ => [[]])
  | fuel + 1, c :: rest =>
      match soupTextAux fuel rest with
      | [] => [[c]]
      | seg :: segs => (c :: seg) :: segs

/-- Join non-empty stripped segments with a single separating space. -/
def joinSp : List (List Char) → List Char
  | [] => []
  | [x] => x
  | x :: y :: rest =>
      if x.isEmpty then joinSp (y :: rest)
      else
        let tail := joinSp (y :: rest)
        if tail.isEmpty then x else x ++ [' '] ++ tail

def soupText (l : List Char) : List Char :=
  joinSp ((soupTextAux (l.length + 1) l).map pyStrip)

/-- `token_count` (scrapers.py): `len(re.findall(r"[A-Za-z0-9]+", s))`. -/
def findTokens (l : List Char) : List (List Char) :=
  splitDropSep (fun c => !isAlnum c) l

def token_count (l : List Char) : Nat := (findTokens l).length

/-- `strip_leading_punct` (scrapers.py):
`re.sub(r'^[\s\-\–\—\:\.;,)\]\(\[\{︐（）]+', '', s)`. -/
def leadingPunctChar (c : Char) : Bool :=
  isSpc c || c = '-' || c.toNat = 0x2013 || c.toNat = 0x2014 || c = ':' ||
  c = '.' || c = ';' || c = ',' || c = ')' || c = ']' || c = '(' || c = '[' ||
  c.toNat = 0x7B || c.toNat = 0xFE10 || c.toNat = 0xFF08 || c.toNat = 0xFF09

def strip_leading_punct (l : List Char) : List Char :=
  l.dropWhile leadingPunctChar

/-- Python `s.split()`: split on whitespace runs, no empty pieces. -/
def pySplitWs (l : List Char) : List (List Char) := splitDropSep isSpc l

/-! ## modules/scrapers.py — regex search/truncation helpers -/

/-- Does a predicate (receiving the previous character for `\b` context and
the current suffix) hold at some position of the string? -/
def searchPos (p : Option Char → List Char → Bool) :
    Option Char → List Char → Bool
  | _, [] => false
  | prev, c :: rest => p prev (c :: rest) || searchPos p (some c) rest

/-- Keep the prefix up to (excluding) the first position where the predicate
matches: `re.split(pattern, s, maxsplit=1)[0]`. -/
def truncScan (p : Option Char → List Char → Bool) :
    Option Char → List Char → List Char
  | _, [] => []
  | prev, c :: rest =>
      if p prev (c :: rest) then [] else c :: truncScan p (some c) rest

/-- `\b` before a word-initial character: previous char absent or non-word. -/
def bbAt : Option Char → Bool
  | none => true
  | some p => !isWordC p

/-- `\b` after a word-final character: next char absent or non-word. -/
def boundaryAfter : List Char → Bool
  | [] => true
  | c :: _ => !isWordC c

/-- `\bW\b` (or equivalently `\bW\.?\b`, whose optional dot never changes
where a match exists) at the current position. -/
def wordHere (w : String) (prev : Option Char) (s : List Char) : Bool :=
  bbAt prev && leadsWith w.data s && boundaryAfter (s.drop w.data.length)

/-- `\bLIT` without a trailing boundary (used for `\bIn:`). -/
def litBB (w : String) (prev : Option Char) (s : List Char) : Bool :=
  bbAt prev && leadsWith w.data s

/-- Search for `\b(19|20)\d{2}\b` and return the suffix after the first
match (`raw[ym.end():]`). -/
def yearSuffix : Option Char → List Char → Option (List Char)
  | prev, c1 :: c2 :: c3 :: c4 :: rest =>
      if bbAt prev && ((c1 = '1' && c2 = '9') || (c1 = '2' && c2 = '0')) &&
         isDig c3 && isDig c4 && boundaryAfter rest then
        some rest
      else yearSuffix (some c1) (c2 :: c3 :: c4 :: rest)
  | _, _ => none

def hasYear (l : List Char) : Bool := (yearSuffix none l).isSome

/-- `\b\d{4}\b` at the current position. -/
def any4Here (prev : Option Char) (s : List Char) : Bool :=
  match s with
  | a :: b :: c :: d :: rest =>
      bbAt prev && isDig a && isDig b && isDig c && isDig d && boundaryAfter rest
  | _ => false

/-- Case-insensitive `re.search(r'\b(arxiv|preprint|accepted|in press|submitted)\b', s)`. -/
def kickerCI (s : List Char) : Bool :=
  let low := lowerL s
  searchPos (fun prev t =>
    wordHere "arxiv" prev t || wordHere "preprint" prev t ||
    wordHere "accepted" prev t || wordHere "in press" prev t ||
    wordHere "submitted" prev t) none low

/-- Case-insensitive
`re.search(r'doi\.org|https?://|Journal|Proceedings|Vol\.|pp\.|\b\d{4}\b', s)`. -/
def doiJournalCI (s : List Char) : Bool :=
  let low := lowerL s
  hasSubL "doi.org".data low || hasSubL "http://".data low ||
  hasSubL "https://".data low || hasSubL "journal".data low ||
  hasSubL "proceedings".data low || hasSubL "vol.".data low ||
  hasSubL "pp.".data low || searchPos any4Here none s

/-! ## modules/scrapers.py — looks_like_author_fragment -/

/-- Characters allowed after the leading capital of a surname-like token in
rule 1 of the detector: `[A-Za-z\-\']`. -/
def nameChar1 (c : Char) : Bool :=
  isAsciiAlpha c || c = '-' || c = Char.ofNat 39

/-- `re.fullmatch(r'[A-Z]\.?', tok)`. -/
def isInitialTok : List Char → Bool
  | [u] => isAsciiUpper u
  | [u, d] => isAsciiUpper u && d = '.'
  | _ => false

/-- The loop over further `\s+[A-Z][A-Za-z\-\']+` name tokens of rule 1,
followed by `\s*,\s*([^\s,]+)`; mirrors the (deterministic) backtracking of
`re.match(r'^([A-Z][A-Za-z\-\']+(?:\s+[A-Z][A-Za-z\-\']+)*)\s*,\s*([^\s,]+)', s)`.
Returns whether the match exists and the token after the comma passes the
initial-or-short test. -/
def rule1Loop : Nat → List Char → Bool
  | 0, _ => false
  | fuel + 1, pos =>
      let sp := pos.takeWhile isSpc
      match pos.drop sp.length with
      | ',' :: r3 =>
          let r4 := r3.dropWhile isSpc
          let tok2 := r4.takeWhile (fun c => !isSpc c && c ≠ ',')
          !tok2.isEmpty && (isInitialTok tok2 || tok2.length ≤ 3)
      | c2 :: r5 =>
          if sp.length ≥ 1 && isAsciiUpper c2 then
            let run2 := r5.takeWhile nameChar1
            if run2.isEmpty then false else rule1Loop fuel (r5.drop run2.length)
          else false
      | [] => false

/-- Rule 1 of `looks_like_author_fragment`: leading "Surname, Tok" where the
token after the comma is an initial or at most 3 characters. -/
def fragRule1 (sn : List Char) : Bool :=
  match sn with
  | c :: rest =>
      if isAsciiUpper c then
        let run := rest.takeWhile nameChar1
        if run.isEmpty then false
        else rule1Loop (sn.length + 1) (rest.drop run.length)
      else false
  | [] => false

/-- Rule 2: at least two commas and the first four alphanumeric tokens all
of length at most 3. -/
def fragRule2 (sn : List Char) : Bool :=
  sn.count ',' ≥ 2 && ((findTokens sn).take 4).all (·.length ≤ 3)

/-- Rule 3: the first six tokens are mostly short. -/
def fragRule3 (sn : List Char) : Bool :=
  let toks := findTokens sn
  (((toks.take 6).filter (·.length ≤ 3)).length ≥ max 2 (min 4 toks.length) : Bool)

/-- `\band\s+[A-Z](?:[a-z]+\.?|(?:\s+[A-Z]\.?)?)$` at the current position. -/
def rule4Here (prev : Option Char) (s : List Char) : Bool :=
  bbAt prev && leadsWith "and".data s &&
  (let r := s.drop 3
   let sp := r.takeWhile isSpc
   !sp.isEmpty &&
   (match r.drop sp.length with
    | [] => false
    | c :: t =>
        isAsciiUpper c &&
        ((let lows := t.takeWhile isAsciiLower
          !lows.isEmpty && (t.drop lows.length = [] || t.drop lows.length = ['.'])) ||
         t = [] ||
         (let sp2 := t.takeWhile isSpc
          !sp2.isEmpty &&
          (match t.drop sp2.length with
           | [d] => isAsciiUpper d
           | [d, dot] => isAsciiUpper d && dot = '.'
           | _ => false)))))

/-- Rule 4: the string ends with `and` plus a capitalized short token. -/
def fragRule4 (sn : List Char) : Bool :=
  searchPos rule4Here none sn

/-- `looks_like_author_fragment` (scrapers.py, lines 192–228). -/
def looks_like_author_fragment (s : List Char) : Bool :=
  if s.isEmpty then false
  else
    let sn := pyStrip (collapseWs s)
    fragRule1 sn || fragRule2 sn || fragRule3 sn || fragRule4 sn

/-! ## modules/scrapers.py — is_title_candidate -/

/-- The strip set of `candidate.strip().strip('".,;:')`. -/
def titleEdgeStrip : List Char := ['"', '.', ',', ';', ':']

/-- `re.fullmatch(r'\(?\d{4}\)?', cand)`. -/
def parenYearFull (cand : List Char) : Bool :=
  match cand with
  | [a, b, c, d] => isDig a && isDig b && isDig c && isDig d
  | ['(', a, b, c, d] => isDig a && isDig b && isDig c && isDig d
  | [a, b, c, d, ')'] => isDig a && isDig b && isDig c && isDig d
  | ['(', a, b, c, d, ')'] => isDig a && isDig b && isDig c && isDig d
  | _ => false

/-- `is_title_candidate(candidate, original, allow_author_like)`
(scrapers.py, lines 231–263). -/
def is_title_candidate (candidate original : List Char)
    (allowAuthorLike : Bool) : Bool :=
  if candidate.isEmpty then false
  else
    let cand := pyStripChars titleEdgeStrip (pyStrip candidate)
    if cand.length < 6 then false
    else
      let ws := pySplitWs cand
      if ws.length < 2 then false
      else if !cand.any isAsciiAlpha then false
      else if !allowAuthorLike && looks_like_author_fragment cand then false
      else if !allowAuthorLike && cand.count ',' ≥ 3 && hasYear original then false
      else if !allowAuthorLike && doiJournalCI cand &&
              (!cand.any isAsciiLower || ws.length < 4) then false
      else if !allowAuthorLike && kickerCI cand then false
      else if parenYearFull cand then false
      else true

/-! ## modules/scrapers.py — stage 1 (quoted spans) -/

/-- A quote token of stage 1's findall class `["“”]|&quot;`: returns the
token length when the suffix starts with one. -/
def quoteTok1 (s : List Char) : Option Nat :=
  match s with
  | c :: _ =>
      if c = '"' || c.toNat = 0x201C || c.toNat = 0x201D then some 1
      else if leadsWith "&quot;".data s then some 6
      else none
  | [] => none

/-- The wider quote class of the stage-1 fallback search
(`["“”“”\u009D]|&quot;`). -/
def quoteTok1b (s : List Char) : Option Nat :=
  match s with
  | c :: _ =>
      if c = '"' || c.toNat = 0x201C || c.toNat = 0x201D || c.toNat = 0x9D then some 1
      else if leadsWith "&quot;".data s then some 6
      else none
  | [] => none

/-- The lazy capture of `(?:["“”]|&quot;)\s*([^"]+?)\s*(?=["“”]|&quot;)`:
starting after the opening quote and its leading spaces, grow the capture
minimally until the remaining text is spaces followed by another quote token.
Returns the capture and the suffix at the (unconsumed) closing quote. -/
def capScan : Nat → List Char → List Char → Option (List Char × List Char)
  | 0, _, _ => none
  | fuel + 1, cap, rest =>
      if !cap.isEmpty && (quoteTok1 (rest.dropWhile isSpc)).isSome then
        some (cap, rest.dropWhile isSpc)
      else
        match rest with
        | [] => none
        | c :: t => if c = '"' then none else capScan fuel (cap ++ [c]) t

/-- `re.findall` for the stage-1 quoted-span pattern: scan for an opening
quote token, try the lazy capture, and continue after the (zero-width)
closing lookahead; on failure resume one character past the opening. -/
def findallQ : Nat → List Char → List (List Char)
  | 0, _ => []
  | fuel + 1, s =>
      match s with
      | [] => []
      | c :: rest =>
          match quoteTok1 (c :: rest) with
          | none => findallQ fuel rest
          | some k =>
              let afterTok := (c :: rest).drop k
              let afterSp := afterTok.dropWhile isSpc
              match capScan (afterSp.length + 1) [] afterSp with
              | some (cap, cont) => cap :: findallQ fuel cont
              | none => findallQ fuel rest

/-- Stable descending insertion sort by a `Nat` key (Python
`sorted(xs, key=lambda s: -key(s))`). -/
def insKeyDesc {α : Type} (key : α → Nat) (x : α) : List α → List α
  | [] => [x]
  | y :: rest => if key y < key x then x :: y :: rest else y :: insKeyDesc key x rest

def sortKeyDesc {α : Type} (key : α → Nat) (l : List α) : List α :=
  l.foldl (fun acc x => insKeyDesc key x acc) []

/-- The kicker alternation of the stage-1 fallback truncation (case
sensitive; note the lowercase `arxiv`). -/
def stage1KickHere (prev : Option Char) (s : List Char) : Bool :=
  wordHere "Journal" prev s || wordHere "Proceedings" prev s ||
  wordHere "International" prev s || wordHere "Vol" prev s ||
  wordHere "pp" prev s ||
  (bbAt prev && leadsWith "doi.org".data s && boundaryAfter (s.drop 7)) ||
  wordHere "arxiv" prev s || wordHere "preprint" prev s ||
  wordHere "accepted" prev s ||
  (bbAt prev && leadsWith "in press".data s && boundaryAfter (s.drop 8)) ||
  wordHere "submitted" prev s || any4Here prev s

/-- The position (and token length) of the first fallback quote character. -/
def findQuoteStart : Nat → List Char → Option (Nat × Nat)
  | 0, _ => none
  | _, [] => none
  | fuel + 1, c :: rest =>
      match quoteTok1b (c :: rest) with
      | some k => some (0, k)
      | none =>
          match findQuoteStart fuel rest with
          | some (i, k) => some (i + 1, k)
          | none => none

/-- Stage 1 of `_extract_paper_title` (scrapers.py, lines 288–309): quoted
spans from the soup text, else the fallback chunk after a lone quote in
`raw`, then the longest-by-token-count candidate that validates (author-like
candidates allowed). -/
def stage1 (rawSoup raw : List Char) : Option (List Char) :=
  let quoted := (findallQ (rawSoup.length + 1) rawSoup).map clean_text
  let quoted :=
    if quoted.isEmpty then
      match findQuoteStart (rawSoup.length + 1) rawSoup with
      | some (i, k) =>
          let chunk := raw.drop (i + k)
          let chunk := truncScan stage1KickHere none chunk
          [pyStrip chunk]
      | none => []
    else quoted
  (sortKeyDesc token_count quoted).foldl (fun acc q =>
    match acc with
    | some t => some t
    | none =>
        let qClean := clean_text q
        if token_count qClean ≥ 2 && is_title_candidate qClean raw true then
          some qClean
        else none) none

/-! ## modules/scrapers.py — stage acceptance guards -/

/-- The acceptance guard shared by stages 3 and 4: reject author fragments,
then validate. -/
def guardTitle (raw a : List Char) : Option (List Char) :=
  if !looks_like_author_fragment a && is_title_candidate a raw false then some a
  else none

/-- The stage-2 acceptance guard, which additionally rejects candidates still
containing a kicker word. -/
def guardTitle2 (raw a : List Char) : Option (List Char) :=
  if !looks_like_author_fragment a && !kickerCI a &&
     is_title_candidate a raw false then some a
  else none

/-! ## modules/scrapers.py — stage 2 (after a year) -/

/-- The (case-sensitive) kicker alternation of stage 2's truncation. -/
def stage2KickHere (prev : Option Char) (s : List Char) : Bool :=
  wordHere "Journal" prev s || wordHere "J" prev s ||
  wordHere "Proceedings" prev s || wordHere "Proc" prev s ||
  wordHere "International" prev s || litBB "In:" prev s ||
  wordHere "Vol" prev s || wordHere "pp" prev s ||
  wordHere "arXiv" prev s || wordHere "preprint" prev s ||
  wordHere "accepted" prev s ||
  (bbAt prev && leadsWith "in press".data s && boundaryAfter (s.drop 8)) ||
  wordHere "submitted" prev s

/-- Stage 2 of `_extract_paper_title` (lines 311–335): take the remainder
after the first year, strip leading punctuation, truncate at a kicker, clean,
and accept unless author-like or kicker-tainted. -/
def stage2 (raw : List Char) : Option (List Char) :=
  match yearSuffix none raw with
  | none => none
  | some afterY =>
      let a := pyStrip afterY
      let a := strip_leading_punct a
      let a := truncScan stage2KickHere none a
      let a := clean_text a
      guardTitle2 raw a

/-! ## modules/scrapers.py — stage 3 (leading author block) -/

/-- Token class `[a-zA-Z\-\.]` of the stage-3 author tokens. -/
def tokC3 (c : Char) : Bool := isAsciiAlpha c || c = '-' || c = '.'

/-- All suffixes after an author token `[A-Z][a-tokC3]+` at the head, in
greedy (longest-consumption-first) order. -/
def tok3Rests (s : List Char) : List (List Char) :=
  match s with
  | c :: rest =>
      if isAsciiUpper c then
        let run := rest.takeWhile tokC3
        (List.range run.length).map (fun j => rest.drop (run.length - j))
      else []
  | [] => []

/-- All suffixes after the separator `(?:,|,?\s+and|,?\s+&)`, in the
pattern's priority order. -/
def sep3Rests (s : List Char) : List (List Char) :=
  let alt1 := match s with | ',' :: r => [r] | _ => []
  let branch := fun (w : List Char) =>
    let starts := match s with | ',' :: r => [r, s] | _ => [s]
    starts.flatMap (fun st =>
      let sp := st.takeWhile isSpc
      if !sp.isEmpty && leadsWith w (st.drop sp.length) then
        [st.drop (sp.length + w.length)]
      else [])
  alt1 ++ branch "and".data ++ branch ['&']

/-- All suffixes after one author-block unit
`TOK(?:\s+TOK)?(?:,|,?\s+and|,?\s+&)\s*`, in priority order. -/
def unit3Rests (s : List Char) : List (List Char) :=
  (tok3Rests s).flatMap (fun r1 =>
    let withSecond :=
      let sp := r1.takeWhile isSpc
      if !sp.isEmpty then tok3Rests (r1.drop sp.length) else []
    (withSecond ++ [r1]).flatMap (fun r2 =>
      (sep3Rests r2).map (fun r3 => r3.dropWhile isSpc)))

/-- First `some` over a list, in order (backtracking priority). -/
def firstSomeMap {α β : Type} (f : α → Option β) : List α → Option β
  | [] => none
  | a :: rest =>
      match f a with
      | some b => some b
      | none => firstSomeMap f rest

/-- The final `TOK[\.,]\s+` of the stage-3 author regex: returns the suffix
after the match. -/
def close3 (r : List Char) : Option (List Char) :=
  firstSomeMap (fun r2 =>
    match r2 with
    | c :: t =>
        if c = '.' || c = ',' then
          let sp := t.takeWhile isSpc
          if !sp.isEmpty then some (t.drop sp.length) else none
        else none
    | [] => none) (tok3Rests r)

/-- Greedy-plus loop over author-block units with backtracking: after at
least one unit, prefer consuming another unit, else close. -/
def loop3 : Nat → List Char → Option (List Char)
  | 0, _ => none
  | fuel + 1, r =>
      match firstSomeMap (fun r1 => loop3 fuel r1) (unit3Rests r) with
      | some out => some out
      | none => close3 r

/-- `re.match` of the stage-3 author-block pattern (line 340–343): the suffix
of `raw` after the match, if any. -/
def authorMatchRest (raw : List Char) : Option (List Char) :=
  firstSomeMap (fun r1 => loop3 (raw.length + 1) r1) (unit3Rests raw)

/-- The stage-3 truncation `(?:,?\s*(?:J\.|Journal|Proc\.|Proceedings|Int\.|
International|Vol\.|pp\.|\d{4}|accepted|in press|submitted))` — all literals
without word boundaries. -/
def stage3KickHere (_prev : Option Char) (s : List Char) : Bool :=
  let body := fun (t : List Char) =>
    let u := t.dropWhile isSpc
    leadsWith "J.".data u || leadsWith "Journal".data u ||
    leadsWith "Proc.".data u || leadsWith "Proceedings".data u ||
    leadsWith "Int.".data u || leadsWith "International".data u ||
    leadsWith "Vol.".data u || leadsWith "pp.".data u ||
    ((u.take 4).length = 4 && (u.take 4).all isDig) ||
    leadsWith "accepted".data u || leadsWith "in press".data u ||
    leadsWith "submitted".data u
  match s with
  | ',' :: r => body r
  | _ => body s

/-- Stage 3 of `_extract_paper_title` (lines 337–355). -/
def stage3 (raw : List Char) : Option (List Char) :=
  match authorMatchRest raw with
  | none => none
  | some rest =>
      let afterAuthors := pyStrip rest
      let seg := truncScan stage3KickHere none afterAuthors
      let seg := clean_text seg
      guardTitle raw seg

/-! ## modules/scrapers.py — stage 4 (before an `<em>` hint) -/

/-- `re.sub(r'^(?:[A-Z][a-z]+(?:,|\s))*\s*', '', s, count=1)`: consume
leading capitalized-word units each followed by one comma or space, then
spaces. -/
def leadNameSub : Nat → List Char → List Char
  | 0, s => s
  | fuel + 1, s =>
      match s with
      | c :: rest =>
          if isAsciiUpper c then
            let lows := rest.takeWhile isAsciiLower
            if lows.isEmpty then s.dropWhile isSpc
            else
              match rest.drop lows.length with
              | d :: r2 =>
                  if d = ',' || isSpc d then leadNameSub fuel r2
                  else s.dropWhile isSpc
              | [] => s.dropWhile isSpc
          else s.dropWhile isSpc
      | [] => []

/-- Stage 4 of `_extract_paper_title` (lines 358–385): the text before the
`<em>` tag (given pre-joined as an input, `none` when there is no `<em>`),
cleaned; skip past a year, else past an early first period, else strip a
leading name run. -/
def stage4 (beforeEm : Option (List Char)) (raw : List Char) :
    Option (List Char) :=
  match beforeEm with
  | none => none
  | some bEmRaw =>
      let b := clean_text bEmRaw
      let cand :=
        match yearSuffix none b with
        | some aft => pyStrip aft
        | none =>
            match b.findIdx? (· = '.') with
            | some i =>
                if 0 < i ∧ i < 80 then pyStrip (b.drop (i + 1))
                else pyStrip (leadNameSub (b.length + 1) b)
            | none => pyStrip (leadNameSub (b.length + 1) b)
      let cand := clean_text cand
      guardTitle raw cand

/-! ## modules/scrapers.py — stages 5 and 6 -/

/-- The trailing-author deletion before stage 5 (line 387):
`re.sub(r'(?:,\s*and\s+[A-Z]\.?[A-Za-z]?|and\s+[A-Z]\.?[A-Za-z]?)$', '', raw)`. -/
def trailAndTail (s : List Char) : Bool :=
  leadsWith "and".data s &&
  (let r := s.drop 3
   let sp := r.takeWhile isSpc
   !sp.isEmpty &&
   (match r.drop sp.length with
    | c :: r2 =>
        isAsciiUpper c &&
        (match r2 with
         | [] => true
         | ['.'] => true
         | [x] => isAsciiAlpha x
         | ['.', x] => isAsciiAlpha x
         | _ => false)
    | [] => false))

def trailAndHere (s : List Char) : Bool :=
  (match s with
   | ',' :: r => trailAndTail (r.dropWhile isSpc)
   | _ => false) || trailAndTail s

def dropTrailingAnd : List Char → List Char
  | [] => []
  | c :: rest =>
      if trailAndHere (c :: rest) then [] else c :: dropTrailingAnd rest

/-- `re.split(r'\.\s+|\;\s+', raw)` — split on a period or semicolon followed
by whitespace, the separator run consumed greedily. -/
def splitSent : Nat → List Char → List Char → List (List Char)
  | 0, acc, _ => [acc.reverse]
  | fuel + 1, acc, s =>
      match s with
      | [] => [acc.reverse]
      | c :: rest =>
          if (c = '.' || c = ';') && !(rest.takeWhile isSpc).isEmpty then
            acc.reverse :: splitSent fuel [] (rest.dropWhile isSpc)
          else splitSent fuel (c :: acc) rest

/-- Stage 5 (lines 390–406): sentence-like pieces, cleaned, with author
fragments discarded; choose the piece maximizing (word count, length),
keeping the first maximum as Python's `max` does. -/
def stage5 (raw : List Char) : Option (List Char) :=
  let pieces := splitSent (raw.length + 1) [] raw
  let cands := (pieces.map clean_text).filter (fun p =>
    !p.isEmpty && !looks_like_author_fragment p && is_title_candidate p raw false)
  match cands with
  | [] => none
  | c0 :: rest =>
      some (rest.foldl (fun best c =>
        if (pySplitWs best).length < (pySplitWs c).length ∨
           ((pySplitWs best).length = (pySplitWs c).length ∧
            best.length < c.length) then c
        else best) c0)

/-- `re.split(r'\s*[,:]\s*', raw)` — split on a comma or colon with the
surrounding spaces consumed. -/
def splitPunct : Nat → List Char → List Char → List (List Char)
  | 0, acc, _ => [acc.reverse]
  | fuel + 1, acc, s =>
      match s with
      | [] => [acc.reverse]
      | c :: rest =>
          let trySep :=
            let sp := (c :: rest).takeWhile isSpc
            let t := (c :: rest).drop sp.length
            match t with
            | d :: r2 =>
                if d = ',' || d = ':' then some (r2.dropWhile isSpc) else none
            | [] => none
          match trySep with
          | some r2 => acc.reverse :: splitPunct fuel [] r2
          | none => splitPunct fuel (c :: acc) rest

/-- One step of a first-match scan over candidate segments. -/
def findStep (p : List Char → Bool) (acc : Option (List Char))
    (seg : List Char) : Option (List Char) :=
  match acc with
  | some t => some t
  | none => if p seg then some seg else none

/-- Stage 6 (lines 408–415): comma/colon segments, longest first; keep the
first long-or-structured segment that validates. -/
def stage6 (raw : List Char) : Option (List Char) :=
  let segs := (splitPunct (raw.length + 1) [] raw).filter (!·.isEmpty)
  let segs := segs.map clean_text
  (sortKeyDesc List.length segs).foldl
    (findStep (fun seg =>
      (':' ∈ seg || '-' ∈ seg || (pySplitWs seg).length ≥ 4) &&
      !looks_like_author_fragment seg && is_title_candidate seg raw false)) none

/-! ## modules/scrapers.py — the extractor cascade -/

/-- `FacultyScraper._extract_paper_title` with the stage number attached
(the source reports it through `debug_report`).  `aria` is the `aria-label`
attribute, `text` the visible text, `beforeEm` the concatenated children
before an `<em>` tag (absent when there is none). -/
def extract_from_raw (raw : List Char) (beforeEmData : Option (List Char)) :
    Option (Nat × List Char) :=
  let rawSoup := soupText raw
  match stage1 rawSoup raw with
  | some t => some (1, t)
  | none =>
    match stage2 raw with
    | some t => some (2, t)
    | none =>
      match stage3 raw with
      | some t => some (3, t)
      | none =>
        match stage4 beforeEmData raw with
        | some t => some (4, t)
        | none =>
          let raw' := dropTrailingAnd raw
          match stage5 raw' with
          | some t => some (5, t)
          | none =>
            match stage6 raw' with
            | some t => some (6, t)
            | none => none

def extract_paper_title_tagged (aria : Option String) (text : String)
    (beforeEm : Option String) : Option (Nat × String) :=
  let raw0 := if truthy_str aria then (aria.getD "") else text
  let raw := clean_text raw0.data
  if raw.isEmpty then none
  else
    (extract_from_raw (raw.filter (· ≠ '*')) (beforeEm.map (·.data))).map
      (fun p => (p.1, ⟨p.2⟩))

/-- `FacultyScraper._extract_paper_title` (scrapers.py, lines 153–417). -/
def extract_paper_title (aria : Option String) (text : String)
    (beforeEm : Option String) : Option String :=
  (extract_paper_title_tagged aria text beforeEm).map (·.2)

/-! ## Derived combinators used by the statements and proofs -/

/-- `sub` occurs contiguously inside `big` (Python `sub in s` as a `Prop`). -/
def SubL (sub big : List Char) : Prop :=
  ∃ u v, big = u ++ sub ++ v

/-- The per-key residue of the papers fold of `update_professor_papers`:
how the record stored at key `k` evolves while the fetched list is folded in. -/
def chainK (author_id : String) (author_name : Option String) (today k : String) :
    List FetchedPaper → Option PaperRec → Option PaperRec
  | [], r => r
  | p :: rest, r =>
      chainK author_id author_name today k rest
        (if p.paperId = some k ∧ k ≠ "" then
          some (mergePaper author_id author_name today p k r)
        else r)

/-- The same chain restricted to the papers that hit key `k`. -/
def chainO (author_id : String) (author_name : Option String) (today k : String) :
    List FetchedPaper → Option PaperRec → Option PaperRec
  | [], r => r
  | p :: rest, r =>
      chainO author_id author_name today k rest
        (some (mergePaper author_id author_name today p k r))

/-- Left fold of `pyKeep` over the selected field of a paper list: the value
a single merged field takes after a sequence of merges. -/
def fieldChain {β : Type} (tr : β → Bool) (sel : FetchedPaper → β)
    (l : List FetchedPaper) (x : β) : β :=
  l.foldl (fun v p => pyKeep tr (sel p) v) x

/-- Left fold of the author-merge over a paper list. -/
def authorsFold (author_id : String) (author_name : Option String)
    (l : List FetchedPaper) (acc : List AuthorObj) : List AuthorObj :=
  l.foldl (fun acc p => mergeAuthors author_id author_name acc p.authors) acc

/-- Closed form of a non-empty merge chain at key `k`. -/
def mkChainRec (author_id : String) (author_name : Option String)
    (today k : String) (l : List FetchedPaper) (e : Option PaperRec) : PaperRec :=
  { paperId := k
    title := fieldChain truthy_str (·.title) l (e.bind (·.title))
    year := fieldChain truthy_int (·.year) l (e.bind (·.year))
    citations := fieldChain Option.isSome (·.citations) l (e.bind (·.citations))
    pdf_url := fieldChain truthy_str (·.pdf_url) l (e.bind (·.pdf_url))
    url := fieldChain truthy_str (·.url) l (e.bind (·.url))
    externalIds := fieldChain truthy_list (·.externalIds) l (e.bind (·.externalIds))
    venue := fieldChain truthy_str (·.venue) l (e.bind (·.venue))
    types := fieldChain truthy_list (·.types) l (e.bind (·.types))
    last_seen := today
    authors := authorsFold author_id author_name l ((e.map (·.authors)).getD []) }

/-- The id-accumulator component of the papers fold, which is independent of
the store. -/
def idsFold (ps : List FetchedPaper) (s : List String) : List String :=
  ps.foldl (fun s p =>
    match p.paperId with
    | none => s
    | some pid => if pid = "" then s else insertIfAbsent s pid) s

/-! ## Concrete fixtures used by counterexamples and witnesses -/

/-- A fetched paper whose own author list repeats the professor being
indexed (the normal case: the API lists the author on their own paper). -/
def c1paper : FetchedPaper :=
  { paperId := some "p1", title := some "T", year := some 2020,
    citations := some 3, pdf_url := none, url := none,
    externalIds := some [], venue := none, types := none,
    authors := some [⟨some "A", some "Ann"⟩] }

/-- A store already holding professor `A` with one linked paper. -/
def c2db : Db :=
  ⟨[("A", ⟨"A", "Ann", "U", "D", ["p1"], "2025-01-01"⟩)], []⟩

/-- An environment whose author-papers fetch returns no papers. -/
def c2env : Env :=
  ⟨fun _ => some [], fun _ => some [], fun _ => some [], "2026-01-01", "TS"⟩

/-- Paper search results giving two votes to id `X` and one to id `Y`. -/
def c4search : String → Option (List PaperResult) := fun t =>
  if t = "T1" ∨ t = "T2" then some [⟨[⟨some "X", some "A. Smith"⟩]⟩]
  else if t = "T3" then some [⟨[⟨some "Y", some "Ann Smith"⟩]⟩]
  else some []

def c4papers : List ScrapedPaper := [⟨some "T1"⟩, ⟨some "T2"⟩, ⟨some "T3"⟩]

/-- Two author-search candidates, the first with a recorded affiliation. -/
def c6cand1 : Candidate :=
  ⟨some "11", some "Ann A", some ["Stanford University"], some "http://x",
   some 5, some 10⟩

def c6cand2 : Candidate :=
  ⟨some "22", some "Ann B", none, none, none, none⟩

/-- An environment whose author search returns the two candidates above. -/
def c6env : Env :=
  ⟨fun _ => some [], fun _ => some [c6cand1, c6cand2], fun _ => some [],
   "2026-01-01", "2026-10-12 00:00:00"⟩

/-- A professors file with a single name. -/
def c7hier : Hier := [("U", [("D", [("Ann", [])])])]

/-- An environment that resolves the single name to one author id. -/
def c7env : Env :=
  ⟨fun _ => some [], fun _ => some [⟨some "A1", some "Ann", none, none, none, none⟩],
   fun _ => some [], "2026-01-01", "TS"⟩

/-- The quoted-title citation of the specification's round-trip property. -/
def c8input : String :=
  "Author, A. \"An Example Title.\" Journal of Tests, 2020."

/-- The author-list fragment of the specification's rejection property. -/
def c9fragment : String := "Smith, J., Doe, R., and Lee, K."

/-- A quoteless year-anchored citation reaching the fallback stages. -/
def c9input : String := "2019 A Study of Widget Dynamics"

/-! # Theorems -/

/-- C10: every call to the client's retry loop resets the pacing interval to
the configured floor before the first attempt — the whole run of `_retry_get`
is independent of the `dynamic_interval` reached by earlier calls, and the
interval in force at the first `wait` is exactly `min_interval`. -/
theorem c10_retry_resets_interval :
    ∀ (mi ma d d' : ℚ) (outcomes : Nat → Attempt),
      retry_get ⟨mi, ma, d⟩ outcomes = retry_get ⟨mi, ma, d'⟩ outcomes ∧
      (retry_get ⟨mi, ma, d⟩ outcomes).2.2.head? = some mi := by
  intro mi ma d d' outcomes
  refine ⟨rfl, ?_⟩
  show (retryLoop outcomes 10 0 ⟨mi, ma, mi⟩).2.2.head? = some mi
  cases h : outcomes 0 <;> simp [retryLoop, h]

/-- C1 (code bug): merging a paper whose API author list contains the
professor being indexed produces two `authors` entries with the same external
id `A` — `authors_seen` is not updated after the professor is appended. -/
theorem c1_update_creates_duplicate_author_ids :
    ((lookupA (update_professor_papers "A" (some "Alice") "2026-01-01" emptyDb
        (some [c1paper])).1.papers "p1").map
          (fun r => r.authors.map (·.authorId))) = some [some "A", some "A"] ∧
    ¬ (((lookupA (update_professor_papers "A" (some "Alice") "2026-01-01" emptyDb
        (some [c1paper])).1.papers "p1").map
          (fun r => r.authors.map (·.authorId))).getD []).Nodup := by
  constructor
  · rfl
  · decide

/-- C2 (code bug): re-processing a professor whose paper fetch returns no
papers overwrites the professor record with an empty `paperIds` list — the
previously recorded id `p1` is lost, violating monotonicity. -/
theorem c2_empty_fetch_wipes_paper_ids :
    ((lookupA (processName c2env c2db "U" "D" "Ann" []).1.professors "A").map
      (·.paperIds)) = some [] ∧
    ((lookupA c2db.professors "A").map (·.paperIds)) = some ["p1"] := by
  constructor <;> rfl

/-- C5 counterexample: the claimed "if and only if" fails — the two names
below have equal normalized surnames yet `name_matches` rejects them, so
surname equality alone is not sufficient. -/
theorem c5_counterexample_surname_equality_not_sufficient :
    (name_parts "Xavier Smith").last = (name_parts "Yolanda Smith").last ∧
    name_matches "Xavier Smith" "Yolanda Smith" = false := by
  constructor <;> decide

/-- C5 amended: exact surname equality is necessary for a match (so
`"Johnson, M."` is never matched to `"Smith, J."`), but not sufficient — a
match additionally requires one of the substring/initial heuristics. -/
theorem c5_amended_surname_necessary :
    (∀ c t, name_matches c t = true →
      (name_parts c).last = (name_parts t).last) ∧
    name_matches "Johnson, M." "Smith, J." = false := by
  constructor
  · intro c t h
    unfold name_matches at h
    by_cases h1 : (name_parts c).last.isEmpty || (name_parts t).last.isEmpty
    · simp [h1] at h
    · by_cases h2 : (name_parts c).last ≠ (name_parts t).last
      · simp [h1, h2] at h
      · exact not_ne_iff.mp h2
  · decide

/-- C5 witness: a matching pair (initial-abbreviated first name) on which the
necessity direction applies. -/
theorem c5_amended_witness :
    name_matches "N. Admal" "Nikhil Admal" = true ∧
    (name_parts "N. Admal").last = (name_parts "Nikhil Admal").last :=
  ⟨by decide, c5_amended_surname_necessary.1 "N. Admal" "Nikhil Admal" (by decide)⟩

/-- C7 counterexample: with `database.json` present but unparseable
(`parsed = none`), the run is not aborted — the single name is processed, the
store is saved once, and a fresh professor record is written over whatever
the corrupt store held. -/
theorem c7_counterexample_corrupt_store_processes :
    update_from_professors_file c7env c7hier true none =
      (⟨[("A1", ⟨"A1", "Ann", "U", "D", [], "2026-01-01"⟩)], []⟩, 1, 1) := by
  rfl

/-- C7 amended: an existing but unreadable/corrupt store is silently replaced
by the empty store (`_load_db` swallows the exception), and the run proceeds
exactly as if the store had been empty. -/
theorem c7_amended_corrupt_treated_as_empty :
    ∀ (env : Env) (hier : Hier),
      update_from_professors_file env hier true none =
        update_from_professors_file env hier true (some emptyDb) ∧
      load_db true none = emptyDb := by
  intro env hier
  exact ⟨rfl, rfl⟩

/-- C8 counterexample: on the round-trip citation the extractor returns the
quoted span with its trailing period intact (`clean_text` strips trailing
whitespace, dashes, commas, semicolons and colons, but never periods), so the
returned title is not `An Example Title`. -/
theorem c8_counterexample_trailing_period_kept :
    extract_paper_title none c8input none = some "An Example Title." ∧
    ("An Example Title." : String) ≠ "An Example Title" := by
  constructor
  · rfl
  · decide

/-- C8 amended: the quoted-title stage wins (stage 1) and returns exactly
`An Example Title.` — the quoted span trimmed of surrounding whitespace with
its trailing period retained. -/
theorem c8_amended_quoted_title_with_period :
    extract_paper_title_tagged none c8input none =
      some (1, "An Example Title.") := by
  rfl

/-! ## Lemmas about the vote maximum (for C4) -/

theorem foldMC_isSome (l : List (String × Nat)) (acc : Option (String × Nat))
    (h : acc.isSome) : (l.foldl mcStep acc).isSome := by
  induction l generalizing acc with
  | nil => exact h
  | cons kv t ih =>
      simp only [List.foldl_cons]
      apply ih
      cases acc with
      | none => simp [mcStep]
      | some best => by_cases hgt : kv.2 > best.2 <;> simp [mcStep, hgt]

theorem foldMC_spec (l : List (String × Nat)) (acc : Option (String × Nat))
    (b : String × Nat) (h : l.foldl mcStep acc = some b) :
    (acc = some b ∨ b ∈ l) ∧ (∀ kv ∈ l, kv.2 ≤ b.2) ∧
    (∀ x, acc = some x → x.2 ≤ b.2) := by
  induction l generalizing acc with
  | nil =>
      refine ⟨Or.inl h, by simp, ?_⟩
      intro x hx
      rw [hx] at h
      cases h
      exact le_refl _
  | cons kv t ih =>
      simp only [List.foldl_cons] at h
      obtain ⟨hmem, hbound, haccb⟩ := ih (mcStep acc kv) h
      have hkv_le : kv.2 ≤ b.2 := by
        cases acc with
        | none => exact haccb kv rfl
        | some best =>
            by_cases hgt : kv.2 > best.2
            · exact haccb kv (by simp [mcStep, hgt])
            · exact le_trans (Nat.le_of_not_lt hgt) (haccb best (by simp [mcStep, hgt]))
      refine ⟨?_, ?_, ?_⟩
      · rcases hmem with hstep | hin
        · cases acc with
          | none =>
              simp [mcStep] at hstep
              exact Or.inr (by simp [hstep])
          | some best =>
              by_cases hgt : kv.2 > best.2
              · simp [mcStep, hgt] at hstep
                exact Or.inr (by simp [hstep])
              · simp [mcStep, hgt] at hstep
                exact Or.inl (by simp [hstep])
        · exact Or.inr (List.mem_cons_of_mem _ hin)
      · intro x hx
        rcases List.mem_cons.mp hx with rfl | hxt
        · exact hkv_le
        · exact hbound x hxt
      · intro x hx
        cases acc with
        | none => cases hx
        | some best =>
            injection hx with hbx
            subst hbx
            by_cases hgt : kv.2 > best.2
            · exact le_trans (le_of_lt hgt) (haccb kv (by simp [mcStep, hgt]))
            · exact haccb best (by simp [mcStep, hgt])

/-- C4 counterexample: two external ids receive votes (`X` twice, `Y` once),
yet `resolve_author_id_via_papers` returns only the single id `X`; the id `Y`,
which has at least one vote, is not part of the result, refuting "returns
every external author id that received at least one vote". -/
theorem c4_counterexample_single_id_returned :
    author_hits "Ann Smith" c4papers c4search = [("X", 2), ("Y", 1)] ∧
    resolve_author_id_via_papers "Ann Smith" c4papers c4search = some "X" ∧
    ("X" : String) ≠ "Y" := by
  refine ⟨by rfl, by rfl, by decide⟩

/-- C4 amended: Strategy A returns `None` exactly when no author id received
a vote, and otherwise returns the single id whose vote count is maximal
(the first-counted one on ties), not the full vote-ordered list. -/
theorem c4_amended_most_voted_id :
    ∀ (name : String) (papers : List ScrapedPaper)
      (search : String → Option (List PaperResult)),
      (resolve_author_id_via_papers name papers search = none ↔
        author_hits name papers search = []) ∧
      (∀ i, resolve_author_id_via_papers name papers search = some i →
        ∃ c, (i, c) ∈ author_hits name papers search ∧
          ∀ kv ∈ author_hits name papers search, kv.2 ≤ c) := by
  intro name papers search
  constructor
  · constructor
    · intro h
      unfold resolve_author_id_via_papers at h
      cases hmc : mostCommonOne (author_hits name papers search) with
      | none =>
          cases hl : author_hits name papers search with
          | nil => rfl
          | cons kv t =>
              exfalso
              have hs : (mostCommonOne (author_hits name papers search)).isSome := by
                rw [hl]
                unfold mostCommonOne
                simp only [List.foldl_cons]
                exact foldMC_isSome t (mcStep none kv) (by simp [mcStep])
              rw [hmc] at hs
              cases hs
      | some best => rw [hmc] at h; cases h
    · intro h
      unfold resolve_author_id_via_papers
      rw [h]
      rfl
  · intro i h
    unfold resolve_author_id_via_papers at h
    cases hmc : mostCommonOne (author_hits name papers search) with
    | none => rw [hmc] at h; cases h
    | some best =>
        rw [hmc] at h
        cases h
        have := foldMC_spec (author_hits name papers search) none best hmc
        obtain ⟨hmem, hbound, _⟩ := this
        rcases hmem with hn | hin
        · cases hn
        · exact ⟨best.2, hin, hbound⟩

/-- C4 witness: the amended theorem applied at the concrete vote table
`[("X", 2), ("Y", 1)]`. -/
theorem c4_amended_witness :
    ∃ c, (("X" : String), c) ∈ author_hits "Ann Smith" c4papers c4search ∧
      ∀ kv ∈ author_hits "Ann Smith" c4papers c4search, kv.2 ≤ c :=
  (c4_amended_most_voted_id "Ann Smith" c4papers c4search).2 "X" (by rfl)

/-! ## Substring lemmas (for C6) -/

theorem subl_extend (s big pre post : List Char) (h : SubL s big) :
    SubL s (pre ++ big ++ post) := by
  obtain ⟨u, v, rfl⟩ := h
  exact ⟨pre ++ u, v ++ post, by simp⟩

theorem joinNL_sub (l : List String) (x : String) (hx : x ∈ l) :
    SubL x.data (joinNL l).data := by
  induction l with
  | nil => cases hx
  | cons y t ih =>
      rcases List.mem_cons.mp hx with rfl | hxt
      · cases t with
        | nil => exact ⟨[], [], by simp [joinNL]⟩
        | cons z t' =>
            exact ⟨[], ("\n" ++ joinNL (z :: t')).data,
              by simp [joinNL, String.data_append]⟩
      · cases t with
        | nil => cases hxt
        | cons z t' =>
            obtain ⟨u, v, hv⟩ := ih hxt
            exact ⟨(y ++ "\n").data ++ u, v,
              by simp [joinNL, String.data_append, hv]⟩

theorem candLine_fields (c : Candidate) :
    SubL (pyShow c.name).data (candLine c).data ∧
    SubL (pyShow c.authorId).data (candLine c).data ∧
    SubL (pyShowCount c.paperCount).data (candLine c).data ∧
    SubL (pyShowCount c.citationCount).data (candLine c).data ∧
    SubL (pyShow c.url).data (candLine c).data := by
  refine ⟨⟨"- ".data,
      (" (" ++ pyShow c.authorId ++ "), Papers: " ++ pyShowCount c.paperCount ++
       ", Citations: " ++ pyShowCount c.citationCount ++ ", URL: " ++
       pyShow c.url).data, ?_⟩,
    ⟨("- " ++ pyShow c.name ++ " (").data,
      ("), Papers: " ++ pyShowCount c.paperCount ++ ", Citations: " ++
       pyShowCount c.citationCount ++ ", URL: " ++ pyShow c.url).data, ?_⟩,
    ⟨("- " ++ pyShow c.name ++ " (" ++ pyShow c.authorId ++ "), Papers: ").data,
      (", Citations: " ++ pyShowCount c.citationCount ++ ", URL: " ++
       pyShow c.url).data, ?_⟩,
    ⟨("- " ++ pyShow c.name ++ " (" ++ pyShow c.authorId ++ "), Papers: " ++
       pyShowCount c.paperCount ++ ", Citations: ").data,
      (", URL: " ++ pyShow c.url).data, ?_⟩,
    ⟨("- " ++ pyShow c.name ++ " (" ++ pyShow c.authorId ++ "), Papers: " ++
       pyShowCount c.paperCount ++ ", Citations: " ++
       pyShowCount c.citationCount ++ ", URL: ").data, [], ?_⟩⟩ <;>
    simp [candLine, String.data_append, List.append_assoc]

/-- Helper: the resolver's multiple-candidates branch. -/
theorem resolve_author_id_multi (name : String) (db : Db) (ts : String)
    (a b : Candidate) (r : List Candidate)
    (hR : findReuse db.professors name = none) :
    resolve_author_id name db (some (a :: b :: r)) ts =
      (none, [ambEntry ts name (a :: b :: r)]) := by
  unfold resolve_author_id
  rw [hR]

/-- C6 amended: when Strategy A yields no id and the direct author search
returns two or more candidates, the resolver returns no id and appends
exactly one entry to the durable log; the entry lists, for every candidate,
its name, id, paper count, citation count and url (the affiliation, although
requested from the API, is not written); and the per-name processing step
leaves the store untouched. -/
theorem c6_amended_ambiguity_logged :
    ∀ (env : Env) (db : Db) (uni dept name : String)
      (papers : List ScrapedPaper) (cs : List Candidate),
      resolve_author_id_via_papers name papers env.searchPapers = none →
      findReuse db.professors name = none →
      env.searchAuthors name = some cs →
      2 ≤ cs.length →
      processName env db uni dept name papers =
        (db, [ambEntry env.ts name cs], false) ∧
      (∀ c ∈ cs, SubL (candLine c).data (ambEntry env.ts name cs).data) ∧
      (∀ c ∈ cs,
        SubL (pyShow c.name).data (candLine c).data ∧
        SubL (pyShow c.authorId).data (candLine c).data ∧
        SubL (pyShowCount c.paperCount).data (candLine c).data ∧
        SubL (pyShowCount c.citationCount).data (candLine c).data ∧
        SubL (pyShow c.url).data (candLine c).data) := by
  intro env db uni dept name papers cs hA hR hS hlen
  obtain ⟨a, b, r, rfl⟩ : ∃ a b r, cs = a :: b :: r := by
    rcases cs with _ | ⟨a, _ | ⟨b, r⟩⟩
    · simp at hlen
    · simp at hlen
    · exact ⟨a, b, r, rfl⟩
  refine ⟨?_, ?_, fun c _ => candLine_fields c⟩
  · unfold processName
    rw [hA, hS, resolve_author_id_multi _ _ _ _ _ _ hR]
  · intro c hc
    have hmem : candLine c ∈
        ("Multiple author candidates found for " ++ sqc ++ name ++ sqc ++ ":")
          :: (a :: b :: r).map candLine :=
      List.mem_cons_of_mem _ (List.mem_map_of_mem _ hc)
    have h1 : SubL (candLine c).data (ambMsg name (a :: b :: r)).data :=
      joinNL_sub _ _ hmem
    have h2 := subl_extend _ _ (env.ts ++ " - ").data "\n\n".data h1
    have hsplit : (ambEntry env.ts name (a :: b :: r)).data =
        (env.ts ++ " - ").data ++ (ambMsg name (a :: b :: r)).data ++
          "\n\n".data := by
      simp [ambEntry, String.data_append, List.append_assoc]
    rw [hsplit]
    exact h2

/-- C6 witness: the amended theorem at a concrete two-candidate search
result, plus the refutation basis: the first candidate's recorded affiliation
never appears in the log entry. -/
theorem c6_amended_witness :
    processName c6env emptyDb "U" "D" "Ann" [] =
      (emptyDb, [ambEntry "2026-10-12 00:00:00" "Ann" [c6cand1, c6cand2]],
       false) :=
  (c6_amended_ambiguity_logged c6env emptyDb "U" "D" "Ann" []
    [c6cand1, c6cand2] (by rfl) (by rfl) (by rfl) (by decide)).1

/-- C6 counterexample: the log entry for the two candidates does not mention
the first candidate's affiliation string (`"Stanford"` does not occur in the
entry), refuting the claim that the ambiguity entry lists each candidate's
affiliation. -/
theorem c6_counterexample_affiliation_absent :
    (c6cand1.affiliations = some ["Stanford University"]) ∧
    hasSubL "Stanford".data
      (ambEntry "2026-10-12 00:00:00" "Ann" [c6cand1, c6cand2]).data = false := by
  constructor
  · rfl
  · rfl

/-! ## Per-stage rejection lemmas (for C9) -/

theorem guardTitle_no_frag (raw a t : List Char) (h : guardTitle raw a = some t) :
    looks_like_author_fragment t = false := by
  unfold guardTitle at h
  split at h
  · next hcond =>
      cases h
      simp only [Bool.and_eq_true, Bool.not_eq_true'] at hcond
      exact hcond.1
  · cases h

theorem guardTitle2_no_frag (raw a t : List Char)
    (h : guardTitle2 raw a = some t) :
    looks_like_author_fragment t = false := by
  unfold guardTitle2 at h
  split at h
  · next hcond =>
      cases h
      simp only [Bool.and_eq_true, Bool.not_eq_true'] at hcond
      exact hcond.1.1
  · cases h

theorem stage2_no_frag (raw t : List Char) (h : stage2 raw = some t) :
    looks_like_author_fragment t = false := by
  unfold stage2 at h
  cases hy : yearSuffix none raw with
  | none => rw [hy] at h; cases h
  | some afterY =>
      rw [hy] at h
      exact guardTitle2_no_frag _ _ _ h

theorem stage3_no_frag (raw t : List Char) (h : stage3 raw = some t) :
    looks_like_author_fragment t = false := by
  unfold stage3 at h
  cases hm : authorMatchRest raw with
  | none => rw [hm] at h; cases h
  | some rest =>
      rw [hm] at h
      exact guardTitle_no_frag _ _ _ h

theorem stage4_no_frag (beforeEm : Option (List Char)) (raw t : List Char)
    (h : stage4 beforeEm raw = some t) :
    looks_like_author_fragment t = false := by
  unfold stage4 at h
  cases beforeEm with
  | none => cases h
  | some bEmRaw => exact guardTitle_no_frag _ _ _ h

theorem foldChoice_mem {α : Type} (g : α → α → α)
    (hg : ∀ x y, g x y = x ∨ g x y = y) :
    ∀ (rest : List α) (c0 : α), rest.foldl g c0 ∈ c0 :: rest := by
  intro rest
  induction rest with
  | nil => intro c0; simp
  | cons r tl ih =>
      intro c0
      simp only [List.foldl_cons]
      rcases hg c0 r with h | h <;> rw [h]
      · rcases List.mem_cons.mp (ih c0) with h2 | h2
        · rw [h2]; exact List.mem_cons_self _ _
        · exact List.mem_cons_of_mem _ (List.mem_cons_of_mem _ h2)
      · rcases List.mem_cons.mp (ih r) with h2 | h2
        · rw [h2]
          exact List.mem_cons_of_mem _ (List.mem_cons_self _ _)
        · exact List.mem_cons_of_mem _ (List.mem_cons_of_mem _ h2)

theorem stage5_no_frag (raw t : List Char) (h : stage5 raw = some t) :
    looks_like_author_fragment t = false := by
  unfold stage5 at h
  simp only [] at h
  set cands := ((splitSent (raw.length + 1) [] raw).map clean_text).filter
    (fun p => !p.isEmpty && !looks_like_author_fragment p &&
      is_title_candidate p raw false) with hcands
  cases hc : cands with
  | nil => rw [hc] at h; cases h
  | cons c0 rest =>
      rw [hc] at h
      cases h
      have hmem : (rest.foldl (fun best c =>
          if (pySplitWs best).length < (pySplitWs c).length ∨
             ((pySplitWs best).length = (pySplitWs c).length ∧
              best.length < c.length) then c else best) c0) ∈ c0 :: rest := by
        apply foldChoice_mem
        intro x y
        dsimp only
        split
        · exact Or.inr rfl
        · exact Or.inl rfl
      have hin : (rest.foldl (fun best c =>
          if (pySplitWs best).length < (pySplitWs c).length ∨
             ((pySplitWs best).length = (pySplitWs c).length ∧
              best.length < c.length) then c else best) c0) ∈ cands := by
        rw [hc]; exact hmem
      have := List.of_mem_filter hin
      simp only [Bool.and_eq_true, Bool.not_eq_true'] at this
      exact this.1.2

theorem foldFind_prop (p : List Char → Bool) (l : List (List Char))
    (t : List Char) :
    ∀ acc : Option (List Char), (∀ u, acc = some u → p u = true) →
      (l.foldl (findStep p) acc) = some t → p t = true := by
  induction l with
  | nil =>
      intro acc hacc h
      exact hacc t h
  | cons seg rest ih =>
      intro acc hacc h
      simp only [List.foldl_cons] at h
      apply ih _ _ h
      intro u hu
      cases acc with
      | some x =>
          simp only [findStep] at hu
          cases hu
          exact hacc u rfl
      | none =>
          simp only [findStep] at hu
          split at hu
          · cases hu
            next hp => exact hp
          · cases hu

theorem stage6_no_frag (raw t : List Char) (h : stage6 raw = some t) :
    looks_like_author_fragment t = false := by
  unfold stage6 at h
  simp only [] at h
  have := foldFind_prop _ _ t none (by intro u hu; cases hu) h
  simp only [Bool.and_eq_true, Bool.not_eq_true'] at this
  exact this.1.2

theorem extract_from_raw_no_frag (raw : List Char) (bEm : Option (List Char))
    (n : Nat) (t : List Char) (h : extract_from_raw raw bEm = some (n, t))
    (hn : 2 ≤ n) : looks_like_author_fragment t = false := by
  unfold extract_from_raw at h
  simp only [] at h
  cases hs1 : stage1 (soupText raw) raw with
  | some t1 => rw [hs1] at h; cases h; omega
  | none =>
      rw [hs1] at h
      cases hs2 : stage2 raw with
      | some t2 => rw [hs2] at h; cases h; exact stage2_no_frag _ _ hs2
      | none =>
          rw [hs2] at h
          cases hs3 : stage3 raw with
          | some t3 => rw [hs3] at h; cases h; exact stage3_no_frag _ _ hs3
          | none =>
              rw [hs3] at h
              cases hs4 : stage4 bEm raw with
              | some t4 =>
                  rw [hs4] at h; cases h; exact stage4_no_frag _ _ _ hs4
              | none =>
                  rw [hs4] at h
                  cases hs5 : stage5 (dropTrailingAnd raw) with
                  | some t5 =>
                      rw [hs5] at h; cases h; exact stage5_no_frag _ _ hs5
                  | none =>
                      rw [hs5] at h
                      cases hs6 : stage6 (dropTrailingAnd raw) with
                      | some t6 =>
                          rw [hs6] at h; cases h; exact stage6_no_frag _ _ hs6
                      | none => rw [hs6] at h; cases h

/-- C9: no fallback stage (2-6) of the title extractor ever returns a
candidate that the author-fragment detector flags - in particular the
author-list fragment `Smith, J., Doe, R., and Lee, K.` (which the detector
flags via its leading `Surname, Initial` rule) is never returned by a
fallback stage. -/
theorem c9_fallback_rejects_author_fragments :
    ∀ (aria : Option String) (text : String) (beforeEm : Option String)
      (n : Nat) (t : String),
      extract_paper_title_tagged aria text beforeEm = some (n, t) →
      2 ≤ n →
      looks_like_author_fragment t.data = false ∧ t ≠ c9fragment := by
  intro aria text beforeEm n t h hn
  unfold extract_paper_title_tagged at h
  simp only [] at h
  have hfrag : looks_like_author_fragment t.data = false := by
    generalize hR : clean_text
      (if truthy_str aria then aria.getD "" else text).data = R at h
    split at h
    · cases h
    · rw [Option.map_eq_some'] at h
      obtain ⟨⟨m, td⟩, hEx, hf⟩ := h
      cases hf
      exact extract_from_raw_no_frag _ _ _ _ hEx hn
  refine ⟨hfrag, ?_⟩
  intro heq
  have hex : looks_like_author_fragment c9fragment.data = true := by decide
  rw [heq] at hfrag
  rw [hfrag] at hex
  cases hex

/-- C9 witness: a quoteless citation resolved by the year-anchor stage
(stage 2); its returned title is not an author fragment and differs from the
fragment example. -/
theorem c9_witness :
    looks_like_author_fragment ("A Study of Widget Dynamics" : String).data
      = false ∧
    ("A Study of Widget Dynamics" : String) ≠ c9fragment :=
  c9_fallback_rejects_author_fragments none c9input none 2
    "A Study of Widget Dynamics" (by rfl) (by decide)

/-! ## Lemmas for the merge-idempotence claim (C3) -/

theorem lookupA_setA {α : Type} (m : List (String × α)) (key : String) (v : α)
    (k : String) :
    lookupA (setA m key v) k = if key = k then some v else lookupA m k := by
  induction m with
  | nil =>
      by_cases h : key = k <;> simp [setA, lookupA, h]
  | cons kv rest ih =>
      obtain ⟨k0, w⟩ := kv
      by_cases h0 : k0 = key
      · subst h0
        by_cases hk : k0 = k <;> simp [setA, lookupA, hk]
      · by_cases hk : k0 = k
        · subst hk
          have hkey : ¬ key = k0 := fun he => h0 he.symm
          simp [setA, lookupA, h0, hkey]
        · simp [setA, lookupA, h0, hk, ih]

theorem paperStep_professors (author_id : String) (author_name : Option String)
    (today : String) :
    ∀ (ps : List FetchedPaper) (acc : Db × List String),
      ((ps.foldl (paperStep author_id author_name today) acc).1).professors =
        acc.1.professors := by
  intro ps
  induction ps with
  | nil => intro acc; rfl
  | cons p t ih =>
      intro acc
      rw [List.foldl_cons, ih]
      unfold paperStep
      cases p.paperId with
      | none => rfl
      | some pid => by_cases hp : pid = "" <;> simp [hp]

theorem paperStep_ids (author_id : String) (author_name : Option String)
    (today : String) :
    ∀ (ps : List FetchedPaper) (acc : Db × List String),
      (ps.foldl (paperStep author_id author_name today) acc).2 =
        idsFold ps acc.2 := by
  intro ps
  induction ps with
  | nil => intro acc; rfl
  | cons p t ih =>
      intro acc
      rw [List.foldl_cons, ih]
      cases hp : p.paperId with
      | none => simp [paperStep, idsFold, hp]
      | some pid =>
          by_cases hpe : pid = "" <;> simp [paperStep, idsFold, hp, hpe]

theorem lookup_fold_papers (author_id : String) (author_name : Option String)
    (today : String) :
    ∀ (ps : List FetchedPaper) (db : Db) (s : List String) (k : String),
      lookupA ((ps.foldl (paperStep author_id author_name today) (db, s)).1).papers k =
        chainK author_id author_name today k ps (lookupA db.papers k) := by
  intro ps
  induction ps with
  | nil => intro db s k; rfl
  | cons p t ih =>
      intro db s k
      rw [List.foldl_cons]
      have hchain : ∀ r, chainK author_id author_name today k (p :: t) r =
          chainK author_id author_name today k t
            (if p.paperId = some k ∧ k ≠ "" then
              some (mergePaper author_id author_name today p k r) else r) :=
        fun r => rfl
      rw [hchain]
      cases hp : p.paperId with
      | none =>
          have hcond : ¬ ((none : Option String) = some k ∧ k ≠ "") := by
            rintro ⟨h1, _⟩; cases h1
          rw [if_neg hcond]
          have hsp : paperStep author_id author_name today (db, s) p = (db, s) := by
            simp [paperStep, hp]
          rw [hsp]
          exact ih db s k
      | some pid =>
          by_cases hpe : pid = ""
          · have hcond : ¬ (some pid = some k ∧ k ≠ "") := by
              rintro ⟨h1, h2⟩; injection h1 with h1; exact h2 (h1 ▸ hpe)
            rw [if_neg hcond]
            have hsp : paperStep author_id author_name today (db, s) p = (db, s) := by
              simp [paperStep, hp, hpe]
            rw [hsp]
            exact ih db s k
          · rcases hsp : paperStep author_id author_name today (db, s) p with ⟨db2, s2⟩
            have h1 : (paperStep author_id author_name today (db, s) p).1.papers =
                setA db.papers pid (mergePaper author_id author_name today p pid
                  (lookupA db.papers pid)) := by
              simp [paperStep, hp, hpe]
            have hdb2 : db2.papers = setA db.papers pid
                (mergePaper author_id author_name today p pid
                  (lookupA db.papers pid)) := by
              rw [← h1, hsp]
            by_cases hk : pid = k
            · subst hk
              have hcond : some pid = some pid ∧ pid ≠ "" := ⟨rfl, hpe⟩
              rw [if_pos hcond, ih db2 s2 pid]
              congr 1
              rw [hdb2, lookupA_setA]
              simp
            · have hcond : ¬ (some pid = some k ∧ k ≠ "") := by
                rintro ⟨h1, _⟩; injection h1 with h1; exact hk h1
              rw [if_neg hcond, ih db2 s2 k]
              congr 1
              rw [hdb2, lookupA_setA, if_neg hk]

theorem chainK_eq_chainO (author_id : String) (author_name : Option String)
    (today k : String) :
    ∀ (ps : List FetchedPaper) (r : Option PaperRec),
      chainK author_id author_name today k ps r =
        chainO author_id author_name today k
          (ps.filter (fun p => decide (p.paperId = some k ∧ k ≠ ""))) r := by
  intro ps
  induction ps with
  | nil => intro r; rfl
  | cons p t ih =>
      intro r
      by_cases hc : p.paperId = some k ∧ k ≠ ""
      · simp only [chainK, if_pos hc, List.filter_cons, decide_eq_true hc, chainO]
        exact ih _
      · simp only [chainK, if_neg hc, List.filter_cons]
        rw [decide_eq_false hc]
        exact ih r

theorem fieldChain_cases {β : Type} (tr : β → Bool) (sel : FetchedPaper → β) :
    ∀ (l : List FetchedPaper) (x y : β),
      fieldChain tr sel l x = fieldChain tr sel l y ∨
      (fieldChain tr sel l x = x ∧ fieldChain tr sel l y = y) := by
  intro l
  induction l with
  | nil => intro x y; exact Or.inr ⟨rfl, rfl⟩
  | cons p t ih =>
      intro x y
      show fieldChain tr sel t (pyKeep tr (sel p) x) =
          fieldChain tr sel t (pyKeep tr (sel p) y) ∨ _
      by_cases htr : tr (sel p) = true
      · left
        simp only [pyKeep, if_pos htr]
      · rcases ih x y with h | ⟨hx, hy⟩
        · left
          simpa only [pyKeep, if_neg htr] using h
        · right
          constructor
          · show fieldChain tr sel t (pyKeep tr (sel p) x) = x
            rw [pyKeep, if_neg htr]
            exact hx
          · show fieldChain tr sel t (pyKeep tr (sel p) y) = y
            rw [pyKeep, if_neg htr]
            exact hy

theorem fieldChain_idem {β : Type} (tr : β → Bool) (sel : FetchedPaper → β)
    (l : List FetchedPaper) (x : β) :
    fieldChain tr sel l (fieldChain tr sel l x) = fieldChain tr sel l x := by
  rcases fieldChain_cases tr sel l (fieldChain tr sel l x) x with h | ⟨h, _⟩
  · exact h
  · exact h

theorem paFold_append :
    ∀ (pa : List AuthorObj) (L : List AuthorObj) (seen : List (Option String)),
      ∃ s, (paFold pa L seen).1 = L ++ s := by
  intro pa
  induction pa with
  | nil => intro L seen; exact ⟨[], by simp [paFold]⟩
  | cons a rest ih =>
      intro L seen
      by_cases hmem : a.authorId ∈ seen
      · simp only [paFold, if_pos hmem]
        exact ih L seen
      · simp only [paFold, if_neg hmem]
        obtain ⟨s, hs⟩ := ih (L ++ [a]) (a.authorId :: seen)
        exact ⟨[a] ++ s, by rw [hs, List.append_assoc]⟩

theorem mergeAuthors_none_eq (author_id : String) (author_name : Option String)
    (L : List AuthorObj) :
    mergeAuthors author_id author_name L none =
      (if some author_id ∈ L.map (·.authorId) then L
       else L ++ [⟨some author_id, some (author_name.getD "")⟩]) := rfl

theorem mergeAuthors_nil_eq (author_id : String) (author_name : Option String)
    (L : List AuthorObj) :
    mergeAuthors author_id author_name L (some []) =
      (if some author_id ∈ L.map (·.authorId) then L
       else L ++ [⟨some author_id, some (author_name.getD "")⟩]) := rfl

theorem mergeAuthors_cons_eq (author_id : String) (author_name : Option String)
    (L : List AuthorObj) (a : AuthorObj) (rest : List AuthorObj) :
    mergeAuthors author_id author_name L (some (a :: rest)) =
      (paFold (a :: rest)
        (if some author_id ∈ L.map (·.authorId) then L
         else L ++ [⟨some author_id, some (author_name.getD "")⟩])
        (L.map (·.authorId))).1 := rfl

theorem mergeAuthors_append (author_id : String) (author_name : Option String)
    (L : List AuthorObj) (pa : Option (List AuthorObj)) :
    ∃ s, mergeAuthors author_id author_name L pa = L ++ s := by
  have hl1 : ∃ s1, (if some author_id ∈ L.map (·.authorId) then L
      else L ++ [⟨some author_id, some (author_name.getD "")⟩]) = L ++ s1 := by
    by_cases hmem : some author_id ∈ L.map (·.authorId)
    · exact ⟨[], by simp [hmem]⟩
    · exact ⟨[⟨some author_id, some (author_name.getD "")⟩], by simp [hmem]⟩
  obtain ⟨s1, hs1⟩ := hl1
  cases pa with
  | none => exact ⟨s1, by rw [mergeAuthors_none_eq, hs1]⟩
  | some l =>
      cases l with
      | nil => exact ⟨s1, by rw [mergeAuthors_nil_eq, hs1]⟩
      | cons a rest =>
          obtain ⟨s2, hs2⟩ := paFold_append (a :: rest)
            (if some author_id ∈ L.map (·.authorId) then L
             else L ++ [⟨some author_id, some (author_name.getD "")⟩])
            (L.map (·.authorId))
          refine ⟨s1 ++ s2, ?_⟩
          rw [mergeAuthors_cons_eq, hs2, hs1, List.append_assoc]

theorem mergeAuthors_mono (author_id : String) (author_name : Option String)
    (L : List AuthorObj) (pa : Option (List AuthorObj)) (x : Option String)
    (hx : x ∈ L.map (·.authorId)) :
    x ∈ (mergeAuthors author_id author_name L pa).map (·.authorId) := by
  obtain ⟨s, hs⟩ := mergeAuthors_append author_id author_name L pa
  rw [hs, List.map_append]
  exact List.mem_append_left _ hx

theorem mergeAuthors_has_aid (author_id : String) (author_name : Option String)
    (L : List AuthorObj) (pa : Option (List AuthorObj)) :
    some author_id ∈ (mergeAuthors author_id author_name L pa).map (·.authorId) := by
  have hl1 : some author_id ∈
      ((if some author_id ∈ L.map (·.authorId) then L
        else L ++ [⟨some author_id, some (author_name.getD "")⟩])).map
        (·.authorId) := by
    by_cases hmem : some author_id ∈ L.map (·.authorId)
    · simp only [if_pos hmem]; exact hmem
    · simp [hmem]
  cases pa with
  | none => rw [mergeAuthors_none_eq]; exact hl1
  | some l =>
      cases l with
      | nil => rw [mergeAuthors_nil_eq]; exact hl1
      | cons a rest =>
          rw [mergeAuthors_cons_eq]
          obtain ⟨s, hs⟩ := paFold_append (a :: rest) _ (L.map (·.authorId))
          rw [hs, List.map_append]
          exact List.mem_append_left _ hl1

theorem paFold_noop :
    ∀ (pa : List AuthorObj) (L : List AuthorObj) (seen : List (Option String)),
      (∀ a ∈ pa, a.authorId ∈ seen) → paFold pa L seen = (L, seen) := by
  intro pa
  induction pa with
  | nil => intro L seen _; rfl
  | cons a0 rest ih =>
      intro L seen hall
      have hmem : a0.authorId ∈ seen := hall a0 (List.mem_cons_self _ _)
      simp only [paFold, if_pos hmem]
      exact ih L seen (fun a ha => hall a (List.mem_cons_of_mem _ ha))

theorem paFold_covers :
    ∀ (pa : List AuthorObj) (L : List AuthorObj) (seen : List (Option String)),
      (∀ x ∈ seen, x ∈ L.map (·.authorId)) →
      ∀ a ∈ pa, a.authorId ∈ ((paFold pa L seen).1).map (·.authorId) := by
  intro pa
  induction pa with
  | nil => intro L seen _ a ha; cases ha
  | cons a0 rest ih =>
      intro L seen hinv a ha
      by_cases hmem : a0.authorId ∈ seen
      · simp only [paFold, if_pos hmem]
        rcases List.mem_cons.mp ha with rfl | hrest
        · obtain ⟨s, hs⟩ := paFold_append rest L seen
          rw [hs, List.map_append]
          exact List.mem_append_left _ (hinv _ hmem)
        · exact ih L seen hinv a hrest
      · simp only [paFold, if_neg hmem]
        have hinv2 : ∀ x ∈ a0.authorId :: seen,
            x ∈ (L ++ [a0]).map (·.authorId) := by
          intro x hx
          rw [List.map_append]
          rcases List.mem_cons.mp hx with rfl | hseen
          · exact List.mem_append_right _ (by simp)
          · exact List.mem_append_left _ (hinv _ hseen)
        rcases List.mem_cons.mp ha with rfl | hrest
        · have hin : a.authorId ∈ (L ++ [a]).map (·.authorId) := by
            rw [List.map_append]; exact List.mem_append_right _ (by simp)
          obtain ⟨s, hs⟩ := paFold_append rest (L ++ [a]) (a.authorId :: seen)
          rw [hs, List.map_append]
          exact List.mem_append_left _ hin
        · exact ih (L ++ [a0]) (a0.authorId :: seen) hinv2 a hrest

theorem mergeAuthors_covers (author_id : String) (author_name : Option String)
    (L : List AuthorObj) (pa : Option (List AuthorObj)) (a : AuthorObj)
    (ha : a ∈ pa.getD []) :
    a.authorId ∈ (mergeAuthors author_id author_name L pa).map (·.authorId) := by
  cases pa with
  | none => cases ha
  | some l =>
      cases l with
      | nil => cases ha
      | cons a0 rest =>
          simp only [Option.getD] at ha
          rw [mergeAuthors_cons_eq]
          refine paFold_covers (a0 :: rest) _ (L.map (·.authorId)) ?_ a ha
          intro x hx
          by_cases hmem : some author_id ∈ L.map (·.authorId)
          · simpa [hmem] using hx
          · simp only [if_neg hmem, List.map_append]
            exact List.mem_append_left _ hx

theorem mergeAuthors_noop (author_id : String) (author_name : Option String)
    (L : List AuthorObj) (pa : Option (List AuthorObj))
    (haid : some author_id ∈ L.map (·.authorId))
    (hall : ∀ a ∈ pa.getD [], a.authorId ∈ L.map (·.authorId)) :
    mergeAuthors author_id author_name L pa = L := by
  cases pa with
  | none => rw [mergeAuthors_none_eq, if_pos haid]
  | some l =>
      cases l with
      | nil => rw [mergeAuthors_nil_eq, if_pos haid]
      | cons a0 rest =>
          rw [mergeAuthors_cons_eq, if_pos haid,
            paFold_noop (a0 :: rest) L (L.map (·.authorId))
              (fun a ha => hall a ha)]

theorem authorsFold_mono (author_id : String) (author_name : Option String) :
    ∀ (l : List FetchedPaper) (L : List AuthorObj) (x : Option String),
      x ∈ L.map (·.authorId) →
      x ∈ (authorsFold author_id author_name l L).map (·.authorId) := by
  intro l
  induction l with
  | nil => intro L x hx; exact hx
  | cons q t ih =>
      intro L x hx
      exact ih _ x (mergeAuthors_mono author_id author_name L q.authors x hx)

theorem authorsFold_covers (author_id : String) (author_name : Option String) :
    ∀ (l : List FetchedPaper) (L : List AuthorObj) (p : FetchedPaper),
      p ∈ l → ∀ a ∈ p.authors.getD [],
        a.authorId ∈ (authorsFold author_id author_name l L).map (·.authorId) := by
  intro l
  induction l with
  | nil => intro L p hp; cases hp
  | cons q t ih =>
      intro L p hp a ha
      rcases List.mem_cons.mp hp with rfl | hpt
      · exact authorsFold_mono author_id author_name t _ _
          (mergeAuthors_covers author_id author_name L p.authors a ha)
      · exact ih _ p hpt a ha

theorem authorsFold_has_aid (author_id : String) (author_name : Option String)
    (q : FetchedPaper) (t : List FetchedPaper) (L : List AuthorObj) :
    some author_id ∈
      (authorsFold author_id author_name (q :: t) L).map (·.authorId) := by
  exact authorsFold_mono author_id author_name t _ _
    (mergeAuthors_has_aid author_id author_name L q.authors)

theorem authorsFold_noop (author_id : String) (author_name : Option String) :
    ∀ (l : List FetchedPaper) (M : List AuthorObj),
      some author_id ∈ M.map (·.authorId) →
      (∀ p ∈ l, ∀ a ∈ p.authors.getD [], a.authorId ∈ M.map (·.authorId)) →
      authorsFold author_id author_name l M = M := by
  intro l
  induction l with
  | nil => intro M _ _; rfl
  | cons q t ih =>
      intro M haid hall
      have hq : mergeAuthors author_id author_name M q.authors = M :=
        mergeAuthors_noop author_id author_name M q.authors haid
          (hall q (List.mem_cons_self _ _))
      show authorsFold author_id author_name t
        (mergeAuthors author_id author_name M q.authors) = M
      rw [hq]
      exact ih M haid (fun p hp => hall p (List.mem_cons_of_mem _ hp))

theorem authorsFold_idem (author_id : String) (author_name : Option String)
    (l : List FetchedPaper) (L : List AuthorObj) :
    authorsFold author_id author_name l (authorsFold author_id author_name l L) =
      authorsFold author_id author_name l L := by
  cases l with
  | nil => rfl
  | cons q t =>
      exact authorsFold_noop author_id author_name (q :: t) _
        (authorsFold_has_aid author_id author_name q t L)
        (fun p hp a ha => authorsFold_covers author_id author_name (q :: t) L p hp a ha)

theorem chainO_cons_eq (author_id : String) (author_name : Option String)
    (today k : String) :
    ∀ (l : List FetchedPaper) (p : FetchedPaper) (e : Option PaperRec),
      chainO author_id author_name today k (p :: l) e =
        some (mkChainRec author_id author_name today k (p :: l) e) := by
  intro l
  induction l with
  | nil => intro p e; rfl
  | cons q t ih =>
      intro p e
      show chainO author_id author_name today k (q :: t)
        (some (mergePaper author_id author_name today p k e)) = _
      rw [ih]
      rfl

theorem chainO_idem (author_id : String) (author_name : Option String)
    (today k : String) (l : List FetchedPaper) (e : Option PaperRec) :
    chainO author_id author_name today k l
      (chainO author_id author_name today k l e) =
    chainO author_id author_name today k l e := by
  cases l with
  | nil => rfl
  | cons p t =>
      rw [chainO_cons_eq author_id author_name today k t p e]
      rw [chainO_cons_eq author_id author_name today k t p]
      congr 1
      apply PaperRec.ext
      · rfl
      · exact fieldChain_idem truthy_str (·.title) (p :: t) _
      · exact fieldChain_idem truthy_int (·.year) (p :: t) _
      · exact fieldChain_idem Option.isSome (·.citations) (p :: t) _
      · exact fieldChain_idem truthy_str (·.pdf_url) (p :: t) _
      · exact fieldChain_idem truthy_str (·.url) (p :: t) _
      · exact fieldChain_idem truthy_list (·.externalIds) (p :: t) _
      · exact fieldChain_idem truthy_str (·.venue) (p :: t) _
      · exact fieldChain_idem truthy_list (·.types) (p :: t) _
      · rfl
      · exact authorsFold_idem author_id author_name (p :: t) _

theorem chainK_idem (author_id : String) (author_name : Option String)
    (today k : String) (ps : List FetchedPaper) (r : Option PaperRec) :
    chainK author_id author_name today k ps
      (chainK author_id author_name today k ps r) =
    chainK author_id author_name today k ps r := by
  simp only [chainK_eq_chainO]
  exact chainO_idem author_id author_name today k _ r

theorem update_some_cons_eq (author_id : String) (author_name : Option String)
    (today : String) (d : Db) (p : FetchedPaper) (t : List FetchedPaper) :
    update_professor_papers author_id author_name today d (some (p :: t)) =
      (((p :: t).foldl (paperStep author_id author_name today)
          (d, dedupFirst (((lookupA d.professors author_id).map
            (·.paperIds)).getD []))).1,
       sortStr (((p :: t).foldl (paperStep author_id author_name today)
          (d, dedupFirst (((lookupA d.professors author_id).map
            (·.paperIds)).getD []))).2)) := rfl

/-- C3: merging the same fetched-paper payload twice (same author id, same
date) yields exactly the same store as merging it once — the `papers` dict is
pointwise equal (Python dict equality), the `professors` dict is untouched,
and the returned sorted id list is identical. -/
theorem c3_merge_idempotent :
    ∀ (author_id : String) (author_name : Option String) (today : String)
      (db : Db) (fetched : Option (List FetchedPaper)),
      (∀ k, lookupA (update_professor_papers author_id author_name today
            (update_professor_papers author_id author_name today db fetched).1
            fetched).1.papers k =
          lookupA (update_professor_papers author_id author_name today db
            fetched).1.papers k) ∧
      (update_professor_papers author_id author_name today
          (update_professor_papers author_id author_name today db fetched).1
          fetched).1.professors =
        (update_professor_papers author_id author_name today db
          fetched).1.professors ∧
      (update_professor_papers author_id author_name today
          (update_professor_papers author_id author_name today db fetched).1
          fetched).2 =
        (update_professor_papers author_id author_name today db fetched).2 := by
  intro author_id author_name today db fetched
  cases fetched with
  | none => exact ⟨fun k => rfl, rfl, rfl⟩
  | some ps =>
      cases ps with
      | nil => exact ⟨fun k => rfl, rfl, rfl⟩
      | cons p t =>
          simp only [update_some_cons_eq]
          have hpro := paperStep_professors author_id author_name today (p :: t)
            (db, dedupFirst (((lookupA db.professors author_id).map
              (·.paperIds)).getD []))
          rw [hpro]
          generalize dedupFirst (((lookupA db.professors author_id).map
            (·.paperIds)).getD []) = s0
          refine ⟨?_, ?_, ?_⟩
          · intro k
            rw [lookup_fold_papers author_id author_name today (p :: t)]
            rw [lookup_fold_papers author_id author_name today (p :: t)]
            exact chainK_idem author_id author_name today k (p :: t) _
          · exact (paperStep_professors author_id author_name today (p :: t) _).trans
              (paperStep_professors author_id author_name today (p :: t) (db, s0))
          · rw [paperStep_ids author_id author_name today (p :: t),
                paperStep_ids author_id author_name today (p :: t)]
